import Mathlib

/-!
Verification development for the structural-sharing engine of
`immutable-linked-ordered-map` (src/src/ImmutableLinkedOrderedMap.js).

The JavaScript engine is shallowly embedded as pure Lean functions over an
explicit heap of mutable objects:

* JS object identity becomes an index (`Nat`) into an arena held in `St`
  (`nodes`, `maps`, `heaps`); reference equality is index equality.
* The internal mutable `LinkedOrderedMap` (hashed doubly linked list used for
  depth layers, version stacks and neighbour maps) is embedded as an
  association list whose order is its traversal order: `set` with an existing
  key overwrites the value in place, otherwise it appends or prepends.
* Map keys are strings (JS property keys are strings after coercion); stored
  values are `Option Int`, where `none` plays the role of JS `undefined`
  (orphan/tombstone nodes carry `none`).
* Items are embedded as `(key, value)` pairs, i.e. as the result of the
  source's `keyValueForItem`; the two accepted item object shapes are
  abstracted to that result.
* Thrown errors of the mode gates are `Except Err`; the change records
  (`map.change`), the `forEach` break flag and the lazy/JSON collaborators are
  outside the claims and are not modelled.
-/

/-- The three map modes (`ImmutableLinkedOrderedMapMode`). -/
inductive Mode where
  | single
  | multiway
  | lightweight
deriving DecidableEq, Repr

/-- Numeric values of the `ImmutableLinkedOrderedMapMode` enum: SINGLE = 1,
MULTIWAY = 2, LIGHTWEIGHT = 3. -/
def modeForNumber (n : Int) : Option Mode :=
  if n = 1 then some Mode.single
  else if n = 2 then some Mode.multiway
  else if n = 3 then some Mode.lightweight
  else none

/-- `const DEFAULT_MAP_MODE = ImmutableLinkedOrderedMapMode.SINGLE` (source line 40). -/
def DEFAULT_MAP_MODE : Int := 1

/-- `mode = (ImmutableLinkedOrderedMapForMode[mode] && mode) || (mode = DEFAULT_MAP_MODE)`
applied to the `mode` option (whose JS default parameter value is
`DEFAULT_MAP_MODE` when the option is omitted). -/
def resolveModeNumber (modeOpt : Option Int) : Int :=
  let m := modeOpt.getD DEFAULT_MAP_MODE
  if (modeForNumber m).isSome then m else DEFAULT_MAP_MODE

/-- Errors thrown by the mode gates. -/
inductive Err where
  | singleMutation (op : String)
  | lightweightUse (op : String)
deriving DecidableEq, Repr

/-- Traversal direction (the `"previous"` / `"next"` strings of the source). -/
inductive Dir where
  | previous
  | next
deriving DecidableEq, Repr

/-! ### The internal mutable `LinkedOrderedMap`

Embedded as an association list in traversal order (head first).  `lomSet`
mirrors `LinkedOrderedMap.prototype.set`: an existing key is overwritten in
place, a new key is appended, or prepended when `prepend` is true. -/

/-- `LinkedOrderedMap.prototype.set`. -/
def lomSet [BEq α] (m : List (α × β)) (k : α) (v : β) (prepend : Bool) : List (α × β) :=
  if (m.find? (fun e => e.1 == k)).isSome then
    m.map (fun e => if e.1 == k then (e.1, v) else e)
  else if prepend then (k, v) :: m else m ++ [(k, v)]

/-- `LinkedOrderedMap.prototype.get`. -/
def lomGet [BEq α] (m : List (α × β)) (k : α) : Option β :=
  (m.find? (fun e => e.1 == k)).map (fun e => e.2)

/-! ### Nodes, heap values, map objects, state -/

/-- Neighbour maps of a node.  In single mode they map a depth to a neighbour
(or JS `null`); in multiway mode a depth to a version stack of neighbours; in
lightweight mode they are the raw neighbour reference. -/
inductive NbrMap where
  | sgl (m : List (Nat × Option Nat))
  | mw (m : List (Nat × List (String × Option Nat)))
  | lw (n : Option Nat)
deriving DecidableEq, Repr

/-- A node of the shared structure (`makeNode` plus its `element`). -/
structure Node where
  prev : NbrMap
  next : NbrMap
  key : String
  value : Option Int
deriving DecidableEq, Repr

instance : Inhabited Node := ⟨⟨NbrMap.lw none, NbrMap.lw none, "", none⟩⟩

/-- A per-key heap-map entry: depth layers in single mode, depth layers of
version stacks in multiway mode, a bare node in lightweight mode. -/
inductive HeapVal where
  | sgl (m : List (Nat × Nat))
  | mw (m : List (Nat × List (String × Nat)))
  | lw (n : Nat)
deriving DecidableEq, Repr

/-- The shared heap map: a JS object keyed by user keys. -/
abbrev HeapMap : Type := List (String × HeapVal)

/-- `heapMap[key] = v` (plain JS object property write). -/
def heapSet (h : HeapMap) (k : String) (v : HeapVal) : HeapMap :=
  if (List.find? (fun e => e.1 == k) h).isSome then
    List.map (fun e => if e.1 == k then (e.1, v) else e) h
  else h ++ [(k, v)]

/-- `heapMap[key]` (plain JS object property read). -/
def heapGet (h : HeapMap) (k : String) : Option HeapVal :=
  (List.find? (fun e => e.1 == k) h).map (fun e => e.2)

/-- The user-visible map object: the fields installed by `hydrate`,
`hydrateMultiwayMode` and the mode subclass constructors. -/
structure MapObj where
  heap : Nat
  depth : Nat
  length : Int
  mode : Mode
  head : Option Nat
  tail : Option Nat
  ancestor : Option Nat
  version : String
  childrenCount : Nat
  mutationOccurred : Bool
deriving DecidableEq, Repr

instance : Inhabited MapObj :=
  ⟨{ heap := 0, depth := 0, length := 0, mode := Mode.single, head := none,
     tail := none, ancestor := none, version := "", childrenCount := 0,
     mutationOccurred := false }⟩

/-- The global state: arenas of node objects, map objects and heap maps.
Indices play the role of JS object references. -/
structure St where
  nodes : List Node
  maps : List MapObj
  heaps : List HeapMap
deriving DecidableEq, Repr

def St.empty : St := ⟨[], [], []⟩

def St.nodeAt (st : St) (i : Nat) : Node := st.nodes.getD i default

def St.mapAt (st : St) (i : Nat) : MapObj := st.maps.getD i default

def St.heapAt (st : St) (i : Nat) : HeapMap := st.heaps.getD i []

def St.setNodeAt (st : St) (i : Nat) (n : Node) : St :=
  { st with nodes := st.nodes.set i n }

def St.updMapAt (st : St) (i : Nat) (f : MapObj → MapObj) : St :=
  { st with maps := st.maps.set i (f (st.mapAt i)) }

def St.setHeapAt (st : St) (i : Nat) (h : HeapMap) : St :=
  { st with heaps := st.heaps.set i h }

def St.pushNode (st : St) (n : Node) : St × Nat :=
  ({ st with nodes := st.nodes ++ [n] }, st.nodes.length)

def St.pushMap (st : St) (m : MapObj) : St × Nat :=
  ({ st with maps := st.maps ++ [m] }, st.maps.length)

def St.pushHeap (st : St) (h : HeapMap) : St × Nat :=
  ({ st with heaps := st.heaps ++ [h] }, st.heaps.length)

/-- Sets `mutationOperationOccurred = true` on a map object (done by the
single/lightweight mode subclasses after an effectful mutation). -/
def armMap (st : St) (i : Nat) : St :=
  st.updMapAt i (fun m => { m with mutationOccurred := true })

/-! ### Multiway versions -/

/-- `MULTIWAY_MODE_MAP_TREE_DEPTH_VERSION_SEPARATOR = "@"`. -/
def versionSeparator : String := "@"

/-- `isAncestorVersionOfDescendantVersion`: string-prefix test
(`descendantVersion.substring(0, possibleAncestorVersion.length) === possibleAncestorVersion`). -/
def isAncestorVersionOfDescendantVersion (possibleAncestorVersion descendantVersion : String) : Bool :=
  descendantVersion.take possibleAncestorVersion.length == possibleAncestorVersion

/-! ### Mode-specific primitives: make, bind, heap update, lookup, neighbour find -/

/-- `makeSingleModeImmutableLinkedOrderedMapNode`. -/
def makeSingleModeImmutableLinkedOrderedMapNode (st : St) (mapId : Nat)
    (previous next : Option Nat) (key : String) (value : Option Int) : St × Nat :=
  let depth := (st.mapAt mapId).depth
  st.pushNode
    { prev := NbrMap.sgl (lomSet [] depth previous false),
      next := NbrMap.sgl (lomSet [] depth next false),
      key := key, value := value }

/-- `makeMultiwayModeImmutableLinkedOrderedMapNode`. -/
def makeMultiwayModeImmutableLinkedOrderedMapNode (st : St) (mapId : Nat)
    (previous next : Option Nat) (key : String) (value : Option Int) : St × Nat :=
  let m := st.mapAt mapId
  st.pushNode
    { prev := NbrMap.mw (lomSet [] m.depth (lomSet [] m.version previous false) false),
      next := NbrMap.mw (lomSet [] m.depth (lomSet [] m.version next false) false),
      key := key, value := value }

/-- `makeLightweightModeImmutableLinkedOrderedMapNode`. -/
def makeLightweightModeImmutableLinkedOrderedMapNode (st : St) (_mapId : Nat)
    (previous next : Option Nat) (key : String) (value : Option Int) : St × Nat :=
  st.pushNode { prev := NbrMap.lw previous, next := NbrMap.lw next, key := key, value := value }

/-- `ImmutableLinkedOrderedMapForMode[mode].makeImmutableLinkedOrderedMapNode`. -/
def makeMapNode (st : St) (mapId : Nat) (previous next : Option Nat)
    (key : String) (value : Option Int) : St × Nat :=
  match (st.mapAt mapId).mode with
  | Mode.single => makeSingleModeImmutableLinkedOrderedMapNode st mapId previous next key value
  | Mode.multiway => makeMultiwayModeImmutableLinkedOrderedMapNode st mapId previous next key value
  | Mode.lightweight => makeLightweightModeImmutableLinkedOrderedMapNode st mapId previous next key value

/-- Update one direction map of a node in single mode:
`node.set(depth, neighbour, true)`. -/
def nbrSglSet (nb : NbrMap) (depth : Nat) (v : Option Nat) : NbrMap :=
  match nb with
  | NbrMap.sgl m => NbrMap.sgl (lomSet m depth v true)
  | other => other

/-- Update one direction map of a node in multiway mode: create the depth
layer if missing (prepended), then prepend the neighbour under the version. -/
def nbrMwSet (nb : NbrMap) (depth : Nat) (version : String) (v : Option Nat) : NbrMap :=
  match nb with
  | NbrMap.mw m =>
    let m := if (lomGet m depth).isSome then m else lomSet m depth [] true
    let stack := (lomGet m depth).getD []
    NbrMap.mw (lomSet m depth (lomSet stack version v true) true)
  | other => other

/-- `bindSingleModeNodes`. -/
def bindSingleModeNodes (st : St) (mapId previousNode nextNode : Nat) : St :=
  let depth := (st.mapAt mapId).depth
  let pn := st.nodeAt previousNode
  let st := st.setNodeAt previousNode { pn with next := nbrSglSet pn.next depth (some nextNode) }
  let nn := st.nodeAt nextNode
  st.setNodeAt nextNode { nn with prev := nbrSglSet nn.prev depth (some previousNode) }

/-- `bindMultiwayModeNodes`. -/
def bindMultiwayModeNodes (st : St) (mapId previousNode nextNode : Nat) : St :=
  let m := st.mapAt mapId
  let pn := st.nodeAt previousNode
  let st := st.setNodeAt previousNode
    { pn with next := nbrMwSet pn.next m.depth m.version (some nextNode) }
  let nn := st.nodeAt nextNode
  st.setNodeAt nextNode
    { nn with prev := nbrMwSet nn.prev m.depth m.version (some previousNode) }

/-- `bindLightweightModeNodes`. -/
def bindLightweightModeNodes (st : St) (_mapId previousNode nextNode : Nat) : St :=
  let pn := st.nodeAt previousNode
  let st := st.setNodeAt previousNode { pn with next := NbrMap.lw (some nextNode) }
  let nn := st.nodeAt nextNode
  st.setNodeAt nextNode { nn with prev := NbrMap.lw (some previousNode) }

/-- `ImmutableLinkedOrderedMapForMode[mode].bindNodes`. -/
def bindNodes (st : St) (mapId previousNode nextNode : Nat) : St :=
  match (st.mapAt mapId).mode with
  | Mode.single => bindSingleModeNodes st mapId previousNode nextNode
  | Mode.multiway => bindMultiwayModeNodes st mapId previousNode nextNode
  | Mode.lightweight => bindLightweightModeNodes st mapId previousNode nextNode

/-- `updateSingleModeHeapMap`: prepend `(depth -> node)` onto the key's depth
layer, creating the layer map when the key is new. -/
def updateSingleModeHeapMap (st : St) (mapId nodeId : Nat) : St :=
  let m := st.mapAt mapId
  let h := st.heapAt m.heap
  let key := (st.nodeAt nodeId).key
  let entries :=
    match heapGet h key with
    | some (HeapVal.sgl es) => es
    | _ => []
  st.setHeapAt m.heap (heapSet h key (HeapVal.sgl (lomSet entries m.depth nodeId true)))

/-- `updateMultiWayModeHeapMap`: ensure the depth layer exists (prepended when
created), then prepend `(version -> node)` onto that layer's stack. -/
def updateMultiWayModeHeapMap (st : St) (mapId nodeId : Nat) : St :=
  let m := st.mapAt mapId
  let h := st.heapAt m.heap
  let key := (st.nodeAt nodeId).key
  let entries :=
    match heapGet h key with
    | some (HeapVal.mw es) => es
    | _ => []
  let entries := if (lomGet entries m.depth).isSome then entries else lomSet entries m.depth [] true
  let stack := (lomGet entries m.depth).getD []
  let entries := lomSet entries m.depth (lomSet stack m.version nodeId true) true
  st.setHeapAt m.heap (heapSet h key (HeapVal.mw entries))

/-- `updateLightweightModeHeapMap`: `heapMap[key] = itemNode`. -/
def updateLightweightModeHeapMap (st : St) (mapId nodeId : Nat) : St :=
  let m := st.mapAt mapId
  let h := st.heapAt m.heap
  let key := (st.nodeAt nodeId).key
  st.setHeapAt m.heap (heapSet h key (HeapVal.lw nodeId))

/-- `ImmutableLinkedOrderedMapForMode[mode].updateHeapMap`. -/
def updateHeapMap (st : St) (mapId nodeId : Nat) : St :=
  match (st.mapAt mapId).mode with
  | Mode.single => updateSingleModeHeapMap st mapId nodeId
  | Mode.multiway => updateMultiWayModeHeapMap st mapId nodeId
  | Mode.lightweight => updateLightweightModeHeapMap st mapId nodeId

/-- The depth walk shared by `lookupSingleMode` and
`findSingleModeMapNodeByDirection`: first entry whose depth key is `≤ depth`
(the walk stops there even when the stored neighbour is JS `null`). -/
def singleDepthScan (entries : List (Nat × Option Nat)) (depth : Nat) : Option Nat :=
  match entries.find? (fun e => decide (e.1 ≤ depth)) with
  | some e => e.2
  | none => none

/-- `lookupSingleMode`. -/
def lookupSingleMode (st : St) (mapId : Nat) (key : String) : Option Nat :=
  let m := st.mapAt mapId
  match heapGet (st.heapAt m.heap) key with
  | some (HeapVal.sgl entries) =>
    match entries.find? (fun e => decide (e.1 ≤ m.depth)) with
    | some e => some e.2
    | none => none
  | _ => none

/-- The depth/version walk of `lookupMultiwayMode`: walk depth layers in
order; inside a layer whose depth is `≤ depth` take the first stacked entry
whose version is an ancestor of `version`; keep walking otherwise. -/
def multiwayScan (entries : List (Nat × List (String × Nat))) (depth : Nat)
    (version : String) : Option Nat :=
  match entries with
  | [] => none
  | (dk, stack) :: rest =>
    if dk ≤ depth then
      match stack.find? (fun sv => isAncestorVersionOfDescendantVersion sv.1 version) with
      | some sv => some sv.2
      | none => multiwayScan rest depth version
    else multiwayScan rest depth version

/-- The walk of `findMultiwayModeMapNodeByDirection`.  It differs from the
heap walk in one way: the stacked neighbour may be JS `null`, and a `null`
hit leaves `node` falsy so the outer loop continues with older layers. -/
def multiwayScanDir (entries : List (Nat × List (String × Option Nat))) (depth : Nat)
    (version : String) : Option Nat :=
  match entries with
  | [] => none
  | (dk, stack) :: rest =>
    if dk ≤ depth then
      match stack.find? (fun sv => isAncestorVersionOfDescendantVersion sv.1 version) with
      | some (_, some n) => some n
      | some (_, none) => multiwayScanDir rest depth version
      | none => multiwayScanDir rest depth version
    else multiwayScanDir rest depth version

/-- `lookupMultiwayMode`. -/
def lookupMultiwayMode (st : St) (mapId : Nat) (key : String) : Option Nat :=
  let m := st.mapAt mapId
  match heapGet (st.heapAt m.heap) key with
  | some (HeapVal.mw entries) => multiwayScan entries m.depth m.version
  | _ => none

/-- `lookupLightweightMode`: one direct hash hit. -/
def lookupLightweightMode (st : St) (mapId : Nat) (key : String) : Option Nat :=
  let m := st.mapAt mapId
  match heapGet (st.heapAt m.heap) key with
  | some (HeapVal.lw n) => some n
  | _ => none

/-- `ImmutableLinkedOrderedMapForMode[mode].lookup`. -/
def lookupNode (st : St) (mapId : Nat) (key : String) : Option Nat :=
  match (st.mapAt mapId).mode with
  | Mode.single => lookupSingleMode st mapId key
  | Mode.multiway => lookupMultiwayMode st mapId key
  | Mode.lightweight => lookupLightweightMode st mapId key

/-- `findSingleModeMapNodeByDirection`. -/
def findSingleModeMapNodeByDirection (st : St) (mapId fromNode : Nat) (dir : Dir) : Option Nat :=
  let m := st.mapAt mapId
  if (some fromNode = m.tail ∧ dir = Dir.next) ∨ (some fromNode = m.head ∧ dir = Dir.previous) then
    none
  else
    let nb := match dir with
      | Dir.previous => (st.nodeAt fromNode).prev
      | Dir.next => (st.nodeAt fromNode).next
    match nb with
    | NbrMap.sgl entries => singleDepthScan entries m.depth
    | _ => none

/-- `findMultiwayModeMapNodeByDirection`. -/
def findMultiwayModeMapNodeByDirection (st : St) (mapId fromNode : Nat) (dir : Dir) : Option Nat :=
  let m := st.mapAt mapId
  if (some fromNode = m.tail ∧ dir = Dir.next) ∨ (some fromNode = m.head ∧ dir = Dir.previous) then
    none
  else
    let nb := match dir with
      | Dir.previous => (st.nodeAt fromNode).prev
      | Dir.next => (st.nodeAt fromNode).next
    match nb with
    | NbrMap.mw entries => multiwayScanDir entries m.depth m.version
    | _ => none

/-- `findLightweightModeMapNodeByDirection`: the raw neighbour reference,
with no head/tail guard. -/
def findLightweightModeMapNodeByDirection (st : St) (_mapId fromNode : Nat) (dir : Dir) : Option Nat :=
  match dir with
  | Dir.previous =>
    match (st.nodeAt fromNode).prev with
    | NbrMap.lw n => n
    | _ => none
  | Dir.next =>
    match (st.nodeAt fromNode).next with
    | NbrMap.lw n => n
    | _ => none

/-- `ImmutableLinkedOrderedMapForMode[mode].findMapNodeByDirection`. -/
def findMapNodeByDirection (st : St) (mapId fromNode : Nat) (dir : Dir) : Option Nat :=
  match (st.mapAt mapId).mode with
  | Mode.single => findSingleModeMapNodeByDirection st mapId fromNode dir
  | Mode.multiway => findMultiwayModeMapNodeByDirection st mapId fromNode dir
  | Mode.lightweight => findLightweightModeMapNodeByDirection st mapId fromNode dir

/-! ### Fork and factory -/

/-- `forkMap` plus the multiway `fork` hook (`forkMultiwayModeMap`): the fork
shares the heap, copies head/tail/length/mode, bumps the depth, starts with
`mutationOperationOccurred = false` and `childrenCount = 0`; in multiway mode
it receives version `parent.version ++ "@" ++ (++parent.childrenCount)` (no
leading separator at the root). -/
def forkMap (st : St) (mapId : Nat) : St × Nat :=
  let m := st.mapAt mapId
  let fresh : MapObj :=
    { heap := m.heap, depth := m.depth + 1, length := m.length, mode := m.mode,
      head := m.head, tail := m.tail, ancestor := some mapId, version := "",
      childrenCount := 0, mutationOccurred := false }
  let (st, newId) := st.pushMap fresh
  match m.mode with
  | Mode.multiway =>
    let cc := m.childrenCount + 1
    let st := st.updMapAt mapId (fun a => { a with childrenCount := cc })
    let v := if m.version.length = 0 then toString cc
             else m.version ++ versionSeparator ++ toString cc
    (st.updMapAt newId (fun a => { a with version := v }), newId)
  | _ => (st, newId)

/-- `addImmutableLinkedOrderedMapOrphanNode`: a node with `undefined` value
planted in the heap for the key (tombstone). -/
def addImmutableLinkedOrderedMapOrphanNode (st : St) (mapId : Nat) (key : String) : St :=
  let (st, newNode) := makeMapNode st mapId none none key none
  updateHeapMap st mapId newNode

/-- The loop body of `appendInitialItemsToMap` (source lines 381-391): walk
the non-tail items in reverse, skipping keys already in `keysMap`, binding
each new node in front of the previous one.  The `map.length++ &&` quirk (the
post-increment value gates the `keysMap` write) is kept as is. -/
def appendInitialStep (mapId : Nat) (acc : St × List String × Nat)
    (item : String × Option Int) : St × List String × Nat :=
  let (st, keysMap, lastNode) := acc
  if keysMap.contains item.1 then acc
  else
    let (st, node) := makeMapNode st mapId none none item.1 item.2
    let st := updateHeapMap st mapId node
    let st := bindNodes st mapId node lastNode
    let oldLen := (st.mapAt mapId).length
    let st := st.updMapAt mapId (fun m => { m with length := m.length + 1 })
    let keysMap := if oldLen ≠ 0 then item.1 :: keysMap else keysMap
    (st, keysMap, node)

/-- `appendInitialItemsToMap`, including the short-circuit quirk of
`keysMap[tailKey] || (map.length++ && (keysMap[tailKey] = true))`: the
post-increment value of `length` is `0` for the first item, so the tail's key
is never recorded in `keysMap`. -/
def appendInitialItemsToMap (st : St) (mapId : Nat) (items : List (String × Option Int)) : St :=
  match items.getLast? with
  | none => st
  | some lastItem =>
    let tailKey := lastItem.1
    let tailValue := lastItem.2
    let (st, newTail) := makeMapNode st mapId none none tailKey tailValue
    let st := updateHeapMap st mapId newTail
    let previousTail := (st.mapAt mapId).tail
    let st := st.updMapAt mapId (fun m => { m with tail := some newTail })
    let oldLen := (st.mapAt mapId).length
    let st := st.updMapAt mapId (fun m => { m with length := m.length + 1 })
    let keysMap : List String := if oldLen ≠ 0 then [tailKey] else []
    if 1 < items.length then
      let (st, _, lastNode) :=
        items.dropLast.reverse.foldl (appendInitialStep mapId) (st, keysMap, newTail)
      if (st.mapAt mapId).head = none then
        st.updMapAt mapId (fun m => { m with head := some lastNode })
      else st
    else
      match previousTail with
      | none => st.updMapAt mapId (fun m => { m with head := some newTail })
      | some pt => bindNodes st mapId pt newTail

/-- `newImmutableLinkedOrderedMap`: resolve the mode (unknown or omitted modes
fall back to `DEFAULT_MAP_MODE`), hydrate a fresh map with a fresh heap and
append the initial items.  Items are given as `keyValueForItem` results. -/
def newImmutableLinkedOrderedMap (st : St) (initialItems : List (String × Option Int))
    (modeOpt : Option Int) : St × Nat :=
  let mode := (modeForNumber (resolveModeNumber modeOpt)).getD Mode.single
  let (st, heapId) := st.pushHeap []
  let m : MapObj :=
    { heap := heapId, depth := 0, length := 0, mode := mode, head := none,
      tail := none, ancestor := none, version := "", childrenCount := 0,
      mutationOccurred := false }
  let (st, mapId) := st.pushMap m
  (appendInitialItemsToMap st mapId initialItems, mapId)

/-! ### The mutation engine (`ImmutableLinkedOrderedMap` base class) -/

/-- The lazy fork of `set`:
`map = (map && ((justForked = false) || map)) || ((justForked = true) && forkMap(this))`.
Returns the state, the fork id and the `justForked` flag. -/
def ensureFork (st : St) (thisId : Nat) (mapOpt : Option Nat) : St × Nat × Bool :=
  match mapOpt with
  | some mid => (st, mid, false)
  | none =>
    let r := forkMap st thisId
    (r.1, r.2, true)

/-- Loop state of `ImmutableLinkedOrderedMap.set`: the lazily created fork,
the `justForked` flag, the change lists, the duplicate-key filter `keysMap`
and the captured variables of the append closures. -/
structure SetLoopSt where
  st : St
  mapOpt : Option Nat
  justForked : Bool
  inserted : List (String × Option Int)
  updated : List (String × Option Int)
  keysSeen : List String
  firstPrepend : Bool
  appendOldTail : Option Nat
  lastPrepend : Option Nat

/-- One iteration of the reverse item walk of `set` (loop body at source
lines 636-717), covering both the append and the prepend (`prependMissing`)
closures. -/
def setStep (thisId : Nat) (prependMissing : Bool) (s : SetLoopSt)
    (item : String × Option Int) : SetLoopSt :=
  let key := item.1
  let value := item.2
  if s.keysSeen.contains key then s
  else
    let s := { s with keysSeen := key :: s.keysSeen }
    match lookupNode s.st thisId key with
    | none =>
      let (st, mapId, justForked) := ensureFork s.st thisId s.mapOpt
      let (st, newNode) := makeMapNode st mapId none none key value
      let st := updateHeapMap st mapId newNode
      if (st.mapAt mapId).tail = none ∧ prependMissing then
        let st := st.updMapAt mapId (fun m => { m with tail := some newNode, head := some newNode })
        let st := st.updMapAt mapId (fun m => { m with length := m.length + 1 })
        { s with st := st, mapOpt := some mapId, justForked := justForked,
                 inserted := (key, value) :: s.inserted }
      else if prependMissing then
        let oldHead := (st.mapAt mapId).head
        let st := st.updMapAt mapId (fun m => { m with head := some newNode })
        let st :=
          match oldHead with
          | some oh => bindNodes st mapId newNode oh
          | none => st
        let st := st.updMapAt mapId (fun m => { m with length := m.length + 1 })
        { s with st := st, mapOpt := some mapId, justForked := justForked,
                 inserted := (key, value) :: s.inserted }
      else if s.firstPrepend then
        let appendOldTail :=
          match (st.mapAt mapId).tail with
          | some t => some t
          | none => s.appendOldTail
        let st := st.updMapAt mapId (fun m => { m with tail := some newNode })
        let st := st.updMapAt mapId (fun m => { m with length := m.length + 1 })
        { s with st := st, mapOpt := some mapId, justForked := justForked,
                 firstPrepend := false, appendOldTail := appendOldTail,
                 lastPrepend := some newNode,
                 inserted := (key, value) :: s.inserted }
      else
        let st :=
          match s.lastPrepend with
          | some lp => bindNodes st mapId newNode lp
          | none => st
        let st := st.updMapAt mapId (fun m => { m with length := m.length + 1 })
        { s with st := st, mapOpt := some mapId, justForked := justForked,
                 lastPrepend := some newNode,
                 inserted := (key, value) :: s.inserted }
    | some nid =>
      if (s.st.nodeAt nid).value ≠ value then
        let (st, mapId, justForked) := ensureFork s.st thisId s.mapOpt
        let previous :=
          match (if justForked then none else findMapNodeByDirection st mapId nid Dir.previous) with
          | some p => some p
          | none => findMapNodeByDirection st thisId nid Dir.previous
        let next :=
          match (if justForked then none else findMapNodeByDirection st mapId nid Dir.next) with
          | some n => some n
          | none => findMapNodeByDirection st thisId nid Dir.next
        let (st, newNode) := makeMapNode st mapId none none key value
        let st := updateHeapMap st mapId newNode
        let st :=
          match previous with
          | some p => bindNodes st mapId p newNode
          | none => st.updMapAt mapId (fun m => { m with head := some newNode })
        match next with
        | some n =>
          let st := bindNodes st mapId newNode n
          { s with st := st, mapOpt := some mapId, justForked := justForked,
                   updated := (key, value) :: s.updated }
        | none =>
          match s.appendOldTail with
          | some _ =>
            { s with st := st, mapOpt := some mapId, justForked := justForked,
                     appendOldTail := some newNode,
                     updated := (key, value) :: s.updated }
          | none =>
            let st := st.updMapAt mapId (fun m => { m with tail := some newNode })
            { s with st := st, mapOpt := some mapId, justForked := justForked,
                     updated := (key, value) :: s.updated }
      else s

/-- `ImmutableLinkedOrderedMap.set` (base class): reverse walk over the items,
then the `loopEnd` fix-up that installs the head and binds the old tail to the
prepend chain.  Returns the receiver when nothing changed. -/
def baseSet (st : St) (thisId : Nat) (items : List (String × Option Int))
    (prependMissing : Bool) : St × Nat :=
  if items.isEmpty then (st, thisId)
  else
    let s0 : SetLoopSt :=
      { st := st, mapOpt := none, justForked := false, inserted := [], updated := [],
        keysSeen := [], firstPrepend := true, appendOldTail := none, lastPrepend := none }
    let s := items.reverse.foldl (setStep thisId prependMissing) s0
    let s :=
      if prependMissing then s
      else
        match s.mapOpt, s.lastPrepend with
        | some mapId, some lp =>
          let st := s.st
          let st :=
            if (st.mapAt mapId).head = none then
              st.updMapAt mapId (fun m => { m with head := some lp })
            else st
          let st :=
            match s.appendOldTail with
            | some t => bindNodes st mapId t lp
            | none => st
          { s with st := st }
        | _, _ => s
    match s.mapOpt with
    | none => (s.st, thisId)
    | some mapId => (s.st, mapId)

/-- The head-removal repair of `unset` (source lines 969-983): a fresh copy
of the old second node becomes the new head, re-bound to its successor. -/
def unsetHeadRepair (st : St) (thisId mapId nn : Nat) : St :=
  let nk := (st.nodeAt nn).key
  let nv := (st.nodeAt nn).value
  let (st, newHeadNode) := makeMapNode st mapId none none nk nv
  let st := updateHeapMap st mapId newHeadNode
  let st := st.updMapAt mapId (fun m => { m with head := some newHeadNode })
  match findMapNodeByDirection st thisId nn Dir.next with
  | none => st.updMapAt mapId (fun m => { m with tail := some newHeadNode })
  | some nextNext => bindNodes st mapId newHeadNode nextNext

/-- The tail-removal repair of `unset` (source lines 985-998), mirror of the
head repair. -/
def unsetTailRepair (st : St) (thisId mapId pp : Nat) : St :=
  let pk := (st.nodeAt pp).key
  let pv := (st.nodeAt pp).value
  let (st, newTailNode) := makeMapNode st mapId none none pk pv
  let st := updateHeapMap st mapId newTailNode
  let st := st.updMapAt mapId (fun m => { m with tail := some newTailNode })
  match findMapNodeByDirection st thisId pp Dir.previous with
  | none => st.updMapAt mapId (fun m => { m with head := some newTailNode })
  | some prevPrev => bindNodes st mapId prevPrev newTailNode

/-- `ImmutableLinkedOrderedMap.unset` (base class). -/
def baseUnset (st : St) (thisId : Nat) (key : String) : St × Nat :=
  match lookupNode st thisId key with
  | none => (st, thisId)
  | some nid =>
    let (st, mapId) := forkMap st thisId
    let st := addImmutableLinkedOrderedMapOrphanNode st mapId key
    let previous := findMapNodeByDirection st thisId nid Dir.previous
    let next := findMapNodeByDirection st thisId nid Dir.next
    match previous, next with
    | none, none =>
      (st.updMapAt mapId (fun m => { m with head := none, tail := none, length := 0 }), mapId)
    | none, some nn =>
      ((unsetHeadRepair st thisId mapId nn).updMapAt mapId
        (fun m => { m with length := m.length - 1 }), mapId)
    | some pp, none =>
      ((unsetTailRepair st thisId mapId pp).updMapAt mapId
        (fun m => { m with length := m.length - 1 }), mapId)
    | some pp, some nn =>
      ((bindNodes st mapId pp nn).updMapAt mapId
        (fun m => { m with length := m.length - 1 }), mapId)

/-- The splice block of `replace` (source lines 856-891) run when `oldKey`
exists, the new key differs and a node for the new key already exists. -/
def replaceSpliceExistent (st : St) (thisId mapId nid enk newNode : Nat)
    (previous next : Option Nat) (value : Option Int) : St :=
  if (st.nodeAt enk).value ≠ value then
    let st :=
      if (st.mapAt mapId).head = some enk then
        st.updMapAt mapId (fun m => { m with head := some newNode })
      else st
    let st :=
      if (st.mapAt mapId).tail = some enk then
        st.updMapAt mapId (fun m => { m with tail := some newNode })
      else st
    let ep := findMapNodeByDirection st thisId enk Dir.previous
    let en := findMapNodeByDirection st thisId enk Dir.next
    let st :=
      match ep with
      | some p =>
        if p ≠ nid then bindNodes st mapId p newNode
        else
          match previous with
          | some pv => bindNodes st mapId pv newNode
          | none => st.updMapAt mapId (fun m => { m with head := some newNode })
      | none => st
    match en with
    | some n =>
      if n ≠ nid then bindNodes st mapId newNode n
      else
        match next with
        | some nx => bindNodes st mapId newNode nx
        | none => st.updMapAt mapId (fun m => { m with tail := some newNode })
    | none => st
  else st

/-- The position block of `replace` (source lines 894-916) run when no node
for the new key pre-existed: put the new node where the old-key node was. -/
def replacePositionNewNode (st : St) (mapId newNode : Nat)
    (previous next : Option Nat) : St :=
  match previous, next with
  | none, none =>
    st.updMapAt mapId (fun m => { m with head := some newNode, tail := some newNode })
  | none, some n =>
    let st := st.updMapAt mapId (fun m => { m with head := some newNode })
    bindNodes st mapId newNode n
  | some p, none =>
    let st := st.updMapAt mapId (fun m => { m with tail := some newNode })
    bindNodes st mapId p newNode
  | some p, some n =>
    let st := bindNodes st mapId p newNode
    bindNodes st mapId newNode n

/-- The not-found `addMissing` branch of `replace` (source lines 770-833).
The source reads `lookup(this, key)` before `key` has been assigned from the
item; the property access coerces `undefined` to the string `"undefined"`,
which is embedded literally. -/
def replaceAddMissing (st : St) (thisId mapId : Nat) (key : String) (value : Option Int)
    (prependMissing : Bool) : St :=
  let existentNodeForKey := lookupNode st thisId "undefined"
  let (st, newNode) := makeMapNode st mapId none none key value
  let st := updateHeapMap st mapId newNode
  match existentNodeForKey with
  | some enk =>
    if (st.nodeAt enk).value ≠ value then
      let st :=
        if (st.mapAt mapId).head = some enk then
          st.updMapAt mapId (fun m => { m with head := some newNode })
        else st
      let st :=
        if (st.mapAt mapId).tail = some enk then
          st.updMapAt mapId (fun m => { m with tail := some newNode })
        else st
      let ep := findMapNodeByDirection st thisId enk Dir.previous
      let en := findMapNodeByDirection st thisId enk Dir.next
      let st :=
        match ep with
        | some p => bindNodes st mapId p newNode
        | none => st
      match en with
      | some n => bindNodes st mapId newNode n
      | none => st
    else st
  | none =>
    let st := st.updMapAt mapId (fun m => { m with length := m.length + 1 })
    if prependMissing then
      let newNext := (st.mapAt mapId).head
      let st := st.updMapAt mapId (fun m => { m with head := some newNode })
      match newNext with
      | none => st.updMapAt mapId (fun m => { m with tail := m.head })
      | some n => bindNodes st mapId newNode n
    else
      let newPrevious := (st.mapAt mapId).tail
      let st := st.updMapAt mapId (fun m => { m with tail := some newNode })
      match newPrevious with
      | none => st.updMapAt mapId (fun m => { m with head := m.tail })
      | some p => bindNodes st mapId p newNode

/-- The found branch of `replace` with a different value (source lines
841-920): make the new node, find the old node's neighbours, tombstone the
old key when it differs, and either splice over an existing node of the new
key or put the new node into the old node's position. -/
def replaceFound (st : St) (thisId mapId nid : Nat) (oldKey key : String)
    (value : Option Int) : St :=
  let (st, newNode) := makeMapNode st mapId none none key value
  let previous := findMapNodeByDirection st thisId nid Dir.previous
  let next := findMapNodeByDirection st thisId nid Dir.next
  if oldKey ≠ key then
    let st := addImmutableLinkedOrderedMapOrphanNode st mapId oldKey
    match lookupNode st thisId key with
    | some enk =>
      let st := replaceSpliceExistent st thisId mapId nid enk newNode previous next value
      let st := st.updMapAt mapId (fun m => { m with length := m.length - 1 })
      updateHeapMap st mapId newNode
    | none =>
      let st := replacePositionNewNode st mapId newNode previous next
      updateHeapMap st mapId newNode
  else
    let st := replacePositionNewNode st mapId newNode previous next
    updateHeapMap st mapId newNode

/-- `ImmutableLinkedOrderedMap.replace` (base class). -/
def baseReplace (st : St) (thisId : Nat) (oldKey : String) (item : String × Option Int)
    (addMissing prependMissing : Bool) : St × Nat :=
  match lookupNode st thisId oldKey with
  | none =>
    if addMissing then
      let (st, mapId) := forkMap st thisId
      (replaceAddMissing st thisId mapId item.1 item.2 prependMissing, mapId)
    else (st, thisId)
  | some nid =>
    if (st.nodeAt nid).value ≠ item.2 then
      let (st, mapId) := forkMap st thisId
      (replaceFound st thisId mapId nid oldKey item.1 item.2, mapId)
    else (st, thisId)

/-- `ImmutableLinkedOrderedMap.empty` (base class): an already empty map is
returned unchanged; otherwise a fresh root map (fresh heap) with the same
mode is created, its depth set to `this.depth + 1` and its ancestor to
`this`. -/
def baseEmpty (st : St) (thisId : Nat) : St × Nat :=
  let m := st.mapAt thisId
  if m.length ≤ 0 then (st, thisId)
  else
    let modeNum : Int :=
      match m.mode with
      | Mode.single => 1
      | Mode.multiway => 2
      | Mode.lightweight => 3
    let (st, newId) := newImmutableLinkedOrderedMap st [] (some modeNum)
    let st := st.updMapAt newId
      (fun a => { a with length := 0, depth := m.depth + 1, ancestor := some thisId })
    (st, newId)

/-! ### Reads (base class) -/

/-- `ImmutableLinkedOrderedMap.get`: the found node's `element.value`
(`none` both for a missing key and for an orphan node), `undefined` otherwise. -/
def baseGet (st : St) (mapId : Nat) (key : String) : Option Int :=
  match lookupNode st mapId key with
  | some nid => (st.nodeAt nid).value
  | none => none

/-- `ImmutableLinkedOrderedMap.first`. -/
def baseFirst (st : St) (mapId : Nat) : Option (String × Option Int) :=
  match (st.mapAt mapId).head with
  | some h => some ((st.nodeAt h).key, (st.nodeAt h).value)
  | none => none

/-- `ImmutableLinkedOrderedMap.last`. -/
def baseLast (st : St) (mapId : Nat) : Option (String × Option Int) :=
  match (st.mapAt mapId).tail with
  | some t => some ((st.nodeAt t).key, (st.nodeAt t).value)
  | none => none

/-- `ImmutableLinkedOrderedMap.isEmpty`. -/
def baseIsEmpty (st : St) (mapId : Nat) : Bool :=
  (st.mapAt mapId).length ≤ 0

/-- The node walk of `forEach`: from the start node, repeatedly step with
`findMapNodeByDirection`, collecting `(key, value)`.  The fuel bound only
guards against cyclic chains, which the source would traverse forever. -/
def walkEntries (st : St) (mapId : Nat) (dir : Dir) :
    Nat → Option Nat → List (String × Option Int)
  | 0, _ => []
  | _, none => []
  | fuel + 1, some cur =>
    ((st.nodeAt cur).key, (st.nodeAt cur).value) ::
      walkEntries st mapId dir fuel (findMapNodeByDirection st mapId cur dir)

/-- `ImmutableLinkedOrderedMap.forEach` as the list of visited
`(key, value)` pairs, forward from the head or reversed from the tail. -/
def forEachEntries (st : St) (mapId : Nat) (reversed : Bool) : List (String × Option Int) :=
  let m := st.mapAt mapId
  if reversed then walkEntries st mapId Dir.previous (st.nodes.length + 1) m.tail
  else walkEntries st mapId Dir.next (st.nodes.length + 1) m.head

/-- `ImmutableLinkedOrderedMap.keys`. -/
def keysOf (st : St) (mapId : Nat) : List String :=
  (forEachEntries st mapId false).map (fun e => e.1)

/-- `ImmutableLinkedOrderedMap.values`. -/
def valuesOf (st : St) (mapId : Nat) : List (Option Int) :=
  (forEachEntries st mapId false).map (fun e => e.2)

/-- `ImmutableLinkedOrderedMap.keysValues`. -/
def keysValuesOf (st : St) (mapId : Nat) : List (String × Option Int) :=
  forEachEntries st mapId false

/-- `ImmutableLinkedOrderedMap.map`: `fn(value, key, index)` over the
traversal. -/
def mapFnOf (st : St) (mapId : Nat) (fn : Option Int → String → Nat → Int)
    (reversed : Bool) : List Int :=
  ((forEachEntries st mapId reversed).enum).map (fun p => fn p.2.2 p.2.1 p.1)

/-! ### Mode gates: the `SingleMode` / `MultiwayMode` / `LightweightMode`
subclasses -/

/-- A mutation method call with its arguments. -/
inductive MutCall where
  | mset (items : List (String × Option Int)) (prependMissing : Bool)
  | mreplace (oldKey : String) (item : String × Option Int) (addMissing prependMissing : Bool)
  | munset (key : String)
  | mempty
deriving Repr

/-- The operation label the mode gates pass to their error constructors. -/
def mutName : MutCall → String
  | MutCall.mset _ _ => "set"
  | MutCall.mreplace _ _ _ _ => "replace"
  | MutCall.munset _ => "unset"
  | MutCall.mempty => "empty"

/-- Base-class dispatch of a mutation call. -/
def baseMut (st : St) (thisId : Nat) : MutCall → St × Nat
  | MutCall.mset items pm => baseSet st thisId items pm
  | MutCall.mreplace oldKey item am pm => baseReplace st thisId oldKey item am pm
  | MutCall.munset key => baseUnset st thisId key
  | MutCall.mempty => baseEmpty st thisId

/-- A mutation as seen through the mode subclass: multiway maps mutate freely;
single and lightweight maps first check `mutationOperationOccurred` (throwing
without touching any state), run the base mutation, and arm the flag exactly
when the result is a different map. -/
def runMut (st : St) (thisId : Nat) (c : MutCall) : St × Except Err Nat :=
  let m := st.mapAt thisId
  match m.mode with
  | Mode.multiway =>
    let r := baseMut st thisId c
    (r.1, Except.ok r.2)
  | Mode.single =>
    if m.mutationOccurred then (st, Except.error (Err.singleMutation (mutName c)))
    else
      let r := baseMut st thisId c
      (if r.2 ≠ thisId then armMap r.1 thisId else r.1, Except.ok r.2)
  | Mode.lightweight =>
    if m.mutationOccurred then (st, Except.error (Err.lightweightUse (mutName c)))
    else
      let r := baseMut st thisId c
      (if r.2 ≠ thisId then armMap r.1 thisId else r.1, Except.ok r.2)

/-- A read method call with its arguments. -/
inductive ReadCall where
  | rget (key : String)
  | rfirst
  | rlast
  | risEmpty
  | rforEach (reversed : Bool)
  | rkeys
  | rvalues
  | rkeysValues
  | rmapFn (fn : Option Int → String → Nat → Int) (reversed : Bool)

/-- The operation label the lightweight gate passes for each read. -/
def readName : ReadCall → String
  | ReadCall.rget _ => "get"
  | ReadCall.rfirst => "first"
  | ReadCall.rlast => "last"
  | ReadCall.risEmpty => "isEmpty"
  | ReadCall.rforEach _ => "forEach"
  | ReadCall.rkeys => "keys"
  | ReadCall.rvalues => "values"
  | ReadCall.rkeysValues => "keysValues"
  | ReadCall.rmapFn _ _ => "map"

/-- The result of a read call. -/
inductive ReadOut where
  | val (v : Option Int)
  | pair (p : Option (String × Option Int))
  | flag (b : Bool)
  | entries (l : List (String × Option Int))
  | strs (l : List String)
  | vals (l : List (Option Int))
  | ints (l : List Int)

/-- Base-class dispatch of a read call. -/
def baseRead (st : St) (thisId : Nat) : ReadCall → ReadOut
  | ReadCall.rget key => ReadOut.val (baseGet st thisId key)
  | ReadCall.rfirst => ReadOut.pair (baseFirst st thisId)
  | ReadCall.rlast => ReadOut.pair (baseLast st thisId)
  | ReadCall.risEmpty => ReadOut.flag (baseIsEmpty st thisId)
  | ReadCall.rforEach reversed => ReadOut.entries (forEachEntries st thisId reversed)
  | ReadCall.rkeys => ReadOut.strs (keysOf st thisId)
  | ReadCall.rvalues => ReadOut.vals (valuesOf st thisId)
  | ReadCall.rkeysValues => ReadOut.entries (keysValuesOf st thisId)
  | ReadCall.rmapFn fn reversed => ReadOut.ints (mapFnOf st thisId fn reversed)

/-- A read as seen through the mode subclass: only the lightweight subclass
overrides reads, throwing once `mutationOperationOccurred` is set. -/
def runRead (st : St) (thisId : Nat) (rc : ReadCall) : Except Err ReadOut :=
  let m := st.mapAt thisId
  match m.mode with
  | Mode.lightweight =>
    if m.mutationOccurred then Except.error (Err.lightweightUse (readName rc))
    else Except.ok (baseRead st thisId rc)
  | _ => Except.ok (baseRead st thisId rc)

/-- Any public operation of the library, for reasoning about arbitrary
operation sequences. -/
inductive Op where
  | opMut (target : Nat) (c : MutCall)
  | opRead (target : Nat) (rc : ReadCall)
  | opFactory (initialItems : List (String × Option Int)) (modeOpt : Option Int)

/-- State effect of one public operation (reads leave the state unchanged). -/
def execOp (st : St) : Op → St
  | Op.opMut target c => (runMut st target c).1
  | Op.opRead _ _ => st
  | Op.opFactory items modeOpt => (newImmutableLinkedOrderedMap st items modeOpt).1

/-- State effect of a sequence of public operations. -/
def execOps (st : St) : List Op → St
  | [] => st
  | op :: ops => execOps (execOp st op) ops

/-! ### Predicates and concrete executions used by the claim analyses -/

/-- Every mutation call on the map throws the single-mode error, leaving the
state untouched (the gate check runs before any state change). -/
def SingleModeMutationsBlocked (st : St) (mid : Nat) : Prop :=
  ∀ c : MutCall, runMut st mid c = (st, Except.error (Err.singleMutation (mutName c)))

/-- Every read call on the map goes through to the base-class read. -/
def ReadsSucceed (st : St) (mid : Nat) : Prop :=
  ∀ rc : ReadCall, runRead st mid rc = Except.ok (baseRead st mid rc)

/-- Every operation on the map, mutation or read, throws the lightweight-mode
post-mutation error; mutations leave the state untouched. -/
def LightweightBlocked (st : St) (mid : Nat) : Prop :=
  (∀ c : MutCall, runMut st mid c = (st, Except.error (Err.lightweightUse (mutName c)))) ∧
  (∀ rc : ReadCall, runRead st mid rc = Except.error (Err.lightweightUse (readName rc)))

/-- All map objects allocated on top of `st0` carry the given mode and a clear
`mutationOperationOccurred` flag. -/
def NewMapsOk (st0 st' : St) (mode0 : Mode) : Prop :=
  ∀ i, st0.maps.length ≤ i → i < st'.maps.length →
    (st'.mapAt i).mode = mode0 ∧ (st'.mapAt i).mutationOccurred = false

/-- C1 scenario: the factory in the default mode with two initial items
sharing the key `"a"`. -/
def c1Factory : St × Nat :=
  newImmutableLinkedOrderedMap St.empty [("a", some 1), ("a", some 2)] none

/-- C2 scenario: a multiway root. -/
def c2Root : St × Nat := newImmutableLinkedOrderedMap St.empty [] (some 2)

/-- C2 scenario: the first child of the root inserts key `"a"` (version `"1"`). -/
def c2A : St × Nat := baseSet c2Root.1 c2Root.2 [("a", some 1)] false

/-- C2 scenario: eight further children of the root (versions `"2"` .. `"9"`). -/
def c2Siblings : St :=
  (List.range 8).foldl
    (fun st i => (baseSet st c2Root.2 [(String.append "x" (toString i), some 0)] false).1)
    c2A.1

/-- C2 scenario: the tenth child of the root inserts only key `"b"`
(version `"10"`). -/
def c2B : St × Nat := baseSet c2Siblings c2Root.2 [("b", some 2)] false

/-- C3 scenario: a multiway root. -/
def c3Root : St × Nat := newImmutableLinkedOrderedMap St.empty [] (some 2)

/-- C3 scenario: first child of the root (version `"1"`, depth 1). -/
def c3A : St × Nat := baseSet c3Root.1 c3Root.2 [("x", some 1)] false

/-- C3 scenario: child of `c3A` writing key `"k"` at depth 2, creating the
depth-2 heap layer for `"k"` before `c3M` exists. -/
def c3B : St × Nat := baseSet c3A.1 c3A.2 [("k", some 1)] false

/-- C3 scenario: second child of the root (version `"2"`, depth 1), holding
only `k -> 9`; its depth-1 heap layer is prepended in front of the older
depth-2 layer. -/
def c3M : St × Nat := baseSet c3B.1 c3Root.2 [("k", some 9)] false

/-- C3 scenario: `c3M.unset("k")` — the orphan is stacked into the existing
depth-2 layer, which sits behind the depth-1 layer holding `k -> 9`. -/
def c3Unset : St × Nat := baseUnset c3M.1 c3M.2 "k"

/-- C4 scenario: a single-mode map holding `a -> 1, b -> 2`. -/
def c4M0 : St × Nat :=
  newImmutableLinkedOrderedMap St.empty [("a", some 1), ("b", some 2)] (some 1)

/-- C4 scenario: `unset("a")` — the fork is map id 1 holding only `b`. -/
def c4U1 : St × Except Err Nat := runMut c4M0.1 c4M0.2 (MutCall.munset "a")

/-- C4 scenario: a second `unset("a")` on the result map (id 1), whose key
`"a"` is tombstoned: the lookup finds the orphan node and proceeds. -/
def c4U2 : St × Except Err Nat := runMut c4U1.1 1 (MutCall.munset "a")

/-- C5 counterexample scenario: a fresh empty single-mode map. -/
def c5Empty : St × Nat := newImmutableLinkedOrderedMap St.empty [] (some 1)

/-- C5 counterexample scenario: one `set` call with two items sharing key
`"a"`. -/
def c5R : St × Except Err Nat :=
  runMut c5Empty.1 c5Empty.2 (MutCall.mset [("a", some 1), ("a", some 2)] false)

/-- C5 amended-claim start state: the fresh empty single-mode map. -/
def c5Start : St × Nat := newImmutableLinkedOrderedMap St.empty [] (some 1)

/-- C6 scenario: a single-mode map holding `a -> 1`. -/
def c6M : St × Nat := newImmutableLinkedOrderedMap St.empty [("a", some 1)] (some 1)

/-- C6 scenario: `replace("z", {a: 2}, addMissing = true)` with `"z"` absent
and `"a"` present with a different value. -/
def c6R : St × Except Err Nat :=
  runMut c6M.1 c6M.2 (MutCall.mreplace "z" ("a", some 2) true false)

/-- C7 witness state: a single-mode map holding `a -> 1`. -/
def c7W : St × Nat := newImmutableLinkedOrderedMap St.empty [("a", some 1)] (some 1)

/-- C8 witness state: a lightweight-mode map holding `a -> 1`. -/
def c8W : St × Nat := newImmutableLinkedOrderedMap St.empty [("a", some 1)] (some 3)

/-- C10 witness state: a fresh empty map. -/
def c10W : St × Nat := newImmutableLinkedOrderedMap St.empty [] none

/-- C10 counterexample scenario: a multiway root. -/
def c10Root : St × Nat := newImmutableLinkedOrderedMap St.empty [] (some 2)

/-- C10 counterexample scenario: first child of the root (depth 1,
version `"1"`). -/
def c10A : St × Nat := baseSet c10Root.1 c10Root.2 [("x", some 1)] false

/-- C10 counterexample scenario: child of `c10A` writing `"k"` at depth 2,
creating the depth-2 heap layer for `"k"`. -/
def c10B : St × Nat := baseSet c10A.1 c10A.2 [("k", some 1)] false

/-- C10 counterexample scenario: second child of the root holding
`a -> 1, k -> 9`. -/
def c10M : St × Nat := baseSet c10B.1 c10Root.2 [("a", some 1), ("k", some 9)] false

/-- C10 counterexample scenario: `c10M.unset("k")` — the tombstone lands in
the shadowed depth-2 layer, so `"k"` is still found afterwards. -/
def c10U1 : St × Nat := baseUnset c10M.1 c10M.2 "k"

/-- C10 counterexample scenario: a second `unset("k")` — the lookup still
finds the depth-1 node for `"k"`, the tail-repair branch runs, the length
drops `1 -> 0`, and a fresh copy of the `"a"` node is installed as head and
tail: a map with `length = 0` whose traversal is nonempty. -/
def c10U2 : St × Nat := baseUnset c10U1.1 c10U1.2 "k"

/-- Spec-side definition for the amended C5 claim: keep, for each key, only
its first occurrence in the given list (`seen` holds keys that are dropped
outright).  Applied to `items.reverse`, it keeps the occurrence of each key
with the highest index in `items`. -/
def dedupKeysKeepFirst (seen : List String) :
    List (String × Option Int) → List (String × Option Int)
  | [] => []
  | e :: rest =>
    if seen.contains e.1 then dedupKeysKeepFirst seen rest
    else e :: dedupKeysKeepFirst (e.1 :: seen) rest

/-! ### Frame lemmas

The gate claims quantify over arbitrary subsequent operation sequences, so we
prove that every public operation preserves the mode of every pre-existing
map object, never clears a `mutationOperationOccurred` flag (the base engine
never even touches the flags; only the single/lightweight subclasses set them
to `true`), and only grows the map arena. -/

theorem listGetD_append {α : Type} (l l' : List α) (i : Nat) (d : α) (h : i < l.length) :
    (l ++ l').getD i d = l.getD i d := by
  induction l generalizing i with
  | nil => simp at h
  | cons a t ih =>
    cases i with
    | zero => rfl
    | succ j =>
      simp only [List.cons_append, List.getD_cons_succ]
      exact ih j (by simpa using h)

theorem listGetD_set_ne {α : Type} (l : List α) (i j : Nat) (a d : α) (h : i ≠ j) :
    (l.set i a).getD j d = l.getD j d := by
  induction l generalizing i j with
  | nil => rfl
  | cons b t ih =>
    cases i with
    | zero =>
      cases j with
      | zero => exact absurd rfl h
      | succ j' => rfl
    | succ i' =>
      cases j with
      | zero => rfl
      | succ j' =>
        simp only [List.set_cons_succ, List.getD_cons_succ]
        exact ih i' j' (fun hc => h (by rw [hc]))

theorem listGetD_set_self {α : Type} (l : List α) (i : Nat) (a d : α) (h : i < l.length) :
    (l.set i a).getD i d = a := by
  induction l generalizing i with
  | nil => simp at h
  | cons b t ih =>
    cases i with
    | zero => rfl
    | succ i' =>
      simp only [List.set_cons_succ, List.getD_cons_succ]
      exact ih i' (by simpa using h)

theorem mapAt_updMapAt_self (st : St) (i : Nat) (f : MapObj → MapObj)
    (h : i < st.maps.length) : (st.updMapAt i f).mapAt i = f (st.mapAt i) :=
  listGetD_set_self st.maps i (f (st.mapAt i)) default h

theorem mapAt_updMapAt_ne (st : St) (i j : Nat) (f : MapObj → MapObj) (h : i ≠ j) :
    (st.updMapAt i f).mapAt j = st.mapAt j :=
  listGetD_set_ne st.maps i j (f (st.mapAt i)) default h

theorem mapAt_pushMap_lt (st : St) (m : MapObj) (i : Nat) (h : i < st.maps.length) :
    ((st.pushMap m).1).mapAt i = st.mapAt i :=
  listGetD_append st.maps [m] i default h

/-- Frame with exact flag preservation: the base engine below the gates. -/
def MapFrameEq (st st' : St) : Prop :=
  st.maps.length ≤ st'.maps.length ∧
  ∀ i, i < st.maps.length →
    (st'.mapAt i).mode = (st.mapAt i).mode ∧
    (st'.mapAt i).mutationOccurred = (st.mapAt i).mutationOccurred

/-- Frame with monotone flags: the gated operations. -/
def MapFrame (st st' : St) : Prop :=
  st.maps.length ≤ st'.maps.length ∧
  ∀ i, i < st.maps.length →
    (st'.mapAt i).mode = (st.mapAt i).mode ∧
    ((st.mapAt i).mutationOccurred = true → (st'.mapAt i).mutationOccurred = true)

theorem mapFrameEq_refl (st : St) : MapFrameEq st st :=
  ⟨le_refl _, fun _ _ => ⟨rfl, rfl⟩⟩

theorem mapFrameEq_trans {a b c : St} (h1 : MapFrameEq a b) (h2 : MapFrameEq b c) :
    MapFrameEq a c := by
  refine ⟨le_trans h1.1 h2.1, fun i hi => ?_⟩
  obtain ⟨m1, f1⟩ := h1.2 i hi
  obtain ⟨m2, f2⟩ := h2.2 i (lt_of_lt_of_le hi h1.1)
  exact ⟨m2.trans m1, f2.trans f1⟩

theorem MapFrameEq.toFrame {a b : St} (h : MapFrameEq a b) : MapFrame a b :=
  ⟨h.1, fun i hi => ⟨(h.2 i hi).1, fun ht => ((h.2 i hi).2).trans ht⟩⟩

theorem mapFrame_refl (st : St) : MapFrame st st :=
  ⟨le_refl _, fun _ _ => ⟨rfl, fun h => h⟩⟩

theorem mapFrame_trans {a b c : St} (h1 : MapFrame a b) (h2 : MapFrame b c) :
    MapFrame a c := by
  refine ⟨le_trans h1.1 h2.1, fun i hi => ?_⟩
  obtain ⟨m1, f1⟩ := h1.2 i hi
  obtain ⟨m2, f2⟩ := h2.2 i (lt_of_lt_of_le hi h1.1)
  exact ⟨m2.trans m1, fun ht => f2 (f1 ht)⟩

/-- Field updates that keep `mode` and `mutationOperationOccurred`. -/
def FrameOkF (f : MapObj → MapObj) : Prop :=
  ∀ m, (f m).mode = m.mode ∧ (f m).mutationOccurred = m.mutationOccurred

theorem mfe_mapsEq {st st' st'' : St} (h : MapFrameEq st st') (he : st''.maps = st'.maps) :
    MapFrameEq st st'' := by
  refine ⟨by rw [he]; exact h.1, fun i hi => ?_⟩
  have : st''.mapAt i = st'.mapAt i := by unfold St.mapAt; rw [he]
  rw [this]
  exact h.2 i hi

theorem mfe_updMapAt {st st' : St} (i : Nat) (f : MapObj → MapObj) (hf : FrameOkF f)
    (h : MapFrameEq st st') : MapFrameEq st (st'.updMapAt i f) := by
  refine ⟨le_trans h.1 (by simp [St.updMapAt]), fun j hj => ?_⟩
  by_cases hij : i = j
  · subst hij
    by_cases hlt : i < st'.maps.length
    · rw [mapAt_updMapAt_self st' i f hlt]
      obtain ⟨hm, hfl⟩ := h.2 i hj
      exact ⟨(hf _).1.trans hm, (hf _).2.trans hfl⟩
    · unfold St.updMapAt St.mapAt
      rw [List.set_eq_of_length_le (by omega)]
      exact h.2 i hj
  · rw [mapAt_updMapAt_ne st' i j f hij]
    exact h.2 j hj

theorem mfe_pushMap {st st' : St} (m : MapObj) (h : MapFrameEq st st') :
    MapFrameEq st ((st'.pushMap m).1) := by
  refine ⟨le_trans h.1 (by simp [St.pushMap]), fun j hj => ?_⟩
  rw [mapAt_pushMap_lt st' m j (lt_of_lt_of_le hj h.1)]
  exact h.2 j hj

theorem maps_setNodeAt (st : St) (i : Nat) (n : Node) : (st.setNodeAt i n).maps = st.maps := rfl

theorem maps_setHeapAt (st : St) (i : Nat) (h : HeapMap) : (st.setHeapAt i h).maps = st.maps := rfl

theorem maps_pushNode (st : St) (n : Node) : ((st.pushNode n).1).maps = st.maps := rfl

theorem maps_makeMapNode (st : St) (mapId : Nat) (p n : Option Nat) (k : String)
    (v : Option Int) : ((makeMapNode st mapId p n k v).1).maps = st.maps := by
  unfold makeMapNode
  cases (st.mapAt mapId).mode <;> rfl

theorem maps_bindNodes (st : St) (mapId p n : Nat) : (bindNodes st mapId p n).maps = st.maps := by
  unfold bindNodes
  cases (st.mapAt mapId).mode <;> rfl

theorem maps_updateHeapMap (st : St) (mapId nodeId : Nat) :
    (updateHeapMap st mapId nodeId).maps = st.maps := by
  unfold updateHeapMap
  cases (st.mapAt mapId).mode <;> rfl

theorem maps_addOrphan (st : St) (mapId : Nat) (key : String) :
    (addImmutableLinkedOrderedMapOrphanNode st mapId key).maps = st.maps := by
  unfold addImmutableLinkedOrderedMapOrphanNode
  rw [maps_updateHeapMap, maps_makeMapNode]

theorem frameOkF_head (h : Option Nat) : FrameOkF (fun m => { m with head := h }) :=
  fun _ => ⟨rfl, rfl⟩

theorem mapFrameEq_forkMap (st : St) (mapId : Nat) : MapFrameEq st ((forkMap st mapId).1) := by
  simp only [forkMap]
  rcases hm : (st.mapAt mapId).mode <;> simp only [hm] <;>
    first
    | exact mfe_pushMap _ (mapFrameEq_refl st)
    | exact mfe_updMapAt _ _ (fun _ => ⟨rfl, rfl⟩)
        (mfe_updMapAt _ _ (fun _ => ⟨rfl, rfl⟩) (mfe_pushMap _ (mapFrameEq_refl st)))

/-- `MapFrameEq` is preserved by any fold whose step preserves it. -/
theorem mapFrameEq_foldl {σ β : Type} (f : σ → β → σ) (proj : σ → St)
    (hf : ∀ s b, MapFrameEq (proj s) (proj (f s b))) :
    ∀ (l : List β) (s : σ), MapFrameEq (proj s) (proj (l.foldl f s))
  | [], _ => mapFrameEq_refl _
  | b :: l, s => mapFrameEq_trans (hf s b) (mapFrameEq_foldl f proj hf l (f s b))

theorem maps_pushHeap (st : St) (h : HeapMap) : ((st.pushHeap h).1).maps = st.maps := rfl

theorem mfe_bindNodes {st0 st : St} (mapId p n : Nat) (h : MapFrameEq st0 st) :
    MapFrameEq st0 (bindNodes st mapId p n) :=
  mfe_mapsEq h (maps_bindNodes st mapId p n)

theorem mfe_updateHeapMap {st0 st : St} (mapId nodeId : Nat) (h : MapFrameEq st0 st) :
    MapFrameEq st0 (updateHeapMap st mapId nodeId) :=
  mfe_mapsEq h (maps_updateHeapMap st mapId nodeId)

theorem mfe_addOrphan {st0 st : St} (mapId : Nat) (key : String) (h : MapFrameEq st0 st) :
    MapFrameEq st0 (addImmutableLinkedOrderedMapOrphanNode st mapId key) :=
  mfe_mapsEq h (maps_addOrphan st mapId key)

theorem mapFrameEq_ensureFork (st : St) (thisId : Nat) (mo : Option Nat) :
    MapFrameEq st ((ensureFork st thisId mo).1) := by
  cases mo with
  | none => exact mapFrameEq_forkMap st thisId
  | some mid => exact mapFrameEq_refl st

theorem mfe_makeMapNode_pair {st0 st st' : St} {mapId : Nat} {p n : Option Nat}
    {k : String} {v : Option Int} {x : Nat}
    (he : makeMapNode st mapId p n k v = (st', x)) (h : MapFrameEq st0 st) :
    MapFrameEq st0 st' := by
  have h1 : (makeMapNode st mapId p n k v).1 = st' := congrArg Prod.fst he
  rw [← h1]
  exact mfe_mapsEq h (maps_makeMapNode st mapId p n k v)

theorem mfe_forkMap_pair {st0 st st' : St} {thisId x : Nat}
    (he : forkMap st thisId = (st', x)) (h : MapFrameEq st0 st) : MapFrameEq st0 st' := by
  have h1 : (forkMap st thisId).1 = st' := congrArg Prod.fst he
  rw [← h1]
  exact mapFrameEq_trans h (mapFrameEq_forkMap st thisId)

theorem mfe_ensureFork_pair {st0 st st' : St} {thisId : Nat} {mo : Option Nat}
    {mapId : Nat} {jf : Bool}
    (he : ensureFork st thisId mo = (st', mapId, jf)) (h : MapFrameEq st0 st) :
    MapFrameEq st0 st' := by
  have h1 : (ensureFork st thisId mo).1 = st' := congrArg Prod.fst he
  rw [← h1]
  exact mapFrameEq_trans h (mapFrameEq_ensureFork st thisId mo)

theorem mfe_pushHeap_pair {st0 st st' : St} {h0 : HeapMap} {x : Nat}
    (he : st.pushHeap h0 = (st', x)) (h : MapFrameEq st0 st) : MapFrameEq st0 st' := by
  have h1 : (st.pushHeap h0).1 = st' := congrArg Prod.fst he
  rw [← h1]
  exact mfe_mapsEq h (maps_pushHeap st h0)

theorem mfe_pushMap_pair {st0 st st' : St} {m : MapObj} {x : Nat}
    (he : st.pushMap m = (st', x)) (h : MapFrameEq st0 st) : MapFrameEq st0 st' := by
  have h1 : (st.pushMap m).1 = st' := congrArg Prod.fst he
  rw [← h1]
  exact mfe_pushMap m h

/-- Generic pair-projection helper: a frame fact about `e.1` transfers to the
state component named by a destructuring match equation. -/
theorem mfe_proj_pair {st0 : St} {A : Type} {e : St × A} {st' : St} {x : A}
    (he : e = (st', x)) (h : MapFrameEq st0 e.1) : MapFrameEq st0 st' := by
  have h1 : e.1 = st' := by rw [he]
  rw [← h1]
  exact h

set_option maxHeartbeats 1000000 in
theorem mapFrameEq_setStep (thisId : Nat) (pm : Bool) (s : SetLoopSt)
    (item : String × Option Int) : MapFrameEq s.st (setStep thisId pm s item).st := by
  unfold setStep
  dsimp only
  repeat' split
  all_goals
    repeat
      first
      | exact mapFrameEq_refl _
      | exact mapFrameEq_ensureFork _ _ _
      | exact mapFrameEq_forkMap _ _
      | refine mfe_updMapAt _ _ (fun _ => ⟨rfl, rfl⟩) ?_
      | refine mfe_mapsEq ?_ (maps_bindNodes _ _ _ _)
      | refine mfe_mapsEq ?_ (maps_updateHeapMap _ _ _)
      | refine mfe_mapsEq ?_ (maps_addOrphan _ _ _)
      | refine mfe_mapsEq ?_ (maps_makeMapNode _ _ _ _ _ _)

set_option maxHeartbeats 1000000 in
theorem mapFrameEq_baseSet (st : St) (thisId : Nat) (items : List (String × Option Int))
    (pm : Bool) : MapFrameEq st ((baseSet st thisId items pm).1) := by
  unfold baseSet
  have hfold :
      MapFrameEq st (List.foldl (setStep thisId pm)
        { st := st, mapOpt := none, justForked := false, inserted := [], updated := [],
          keysSeen := [], firstPrepend := true, appendOldTail := none,
          lastPrepend := none } items.reverse).st :=
    mapFrameEq_foldl (setStep thisId pm) (fun a => a.st)
      (fun a b => mapFrameEq_setStep thisId pm a b) items.reverse
      { st := st, mapOpt := none, justForked := false, inserted := [], updated := [],
        keysSeen := [], firstPrepend := true, appendOldTail := none, lastPrepend := none }
  dsimp only
  repeat' split
  all_goals
    repeat
      first
      | exact hfold
      | exact mapFrameEq_refl _
      | refine mfe_updMapAt _ _ (fun _ => ⟨rfl, rfl⟩) ?_
      | refine mfe_mapsEq ?_ (maps_bindNodes _ _ _ _)
      | refine mfe_mapsEq ?_ (maps_updateHeapMap _ _ _)

theorem mapFrameEq_appendInitialStep (mapId : Nat) (acc : St × List String × Nat)
    (item : String × Option Int) :
    MapFrameEq acc.1 ((appendInitialStep mapId acc item).1) := by
  unfold appendInitialStep
  dsimp only
  repeat' split
  all_goals
    repeat
      first
      | exact mapFrameEq_refl _
      | refine mfe_updMapAt _ _ (fun _ => ⟨rfl, rfl⟩) ?_
      | refine mfe_mapsEq ?_ (maps_bindNodes _ _ _ _)
      | refine mfe_mapsEq ?_ (maps_updateHeapMap _ _ _)
      | refine mfe_mapsEq ?_ (maps_makeMapNode _ _ _ _ _ _)

set_option maxHeartbeats 1000000 in
theorem mapFrameEq_appendInitialItemsToMap (st : St) (mapId : Nat)
    (items : List (String × Option Int)) :
    MapFrameEq st (appendInitialItemsToMap st mapId items) := by
  unfold appendInitialItemsToMap
  dsimp only
  repeat' split
  all_goals
    repeat
      first
      | exact mapFrameEq_refl _
      | refine mfe_updMapAt _ _ (fun _ => ⟨rfl, rfl⟩) ?_
      | refine mfe_mapsEq ?_ (maps_bindNodes _ _ _ _)
      | refine mfe_mapsEq ?_ (maps_updateHeapMap _ _ _)
      | refine mfe_mapsEq ?_ (maps_makeMapNode _ _ _ _ _ _)
      | refine mapFrameEq_trans ?_
          (mapFrameEq_foldl (appendInitialStep mapId) (fun a => a.1)
            (fun a b => mapFrameEq_appendInitialStep mapId a b) _ _)

set_option maxHeartbeats 1000000 in
theorem mapFrameEq_factory (st : St) (items : List (String × Option Int))
    (modeOpt : Option Int) :
    MapFrameEq st ((newImmutableLinkedOrderedMap st items modeOpt).1) := by
  unfold newImmutableLinkedOrderedMap
  dsimp only
  refine mapFrameEq_trans ?_ (mapFrameEq_appendInitialItemsToMap _ _ _)
  refine mfe_pushMap _ ?_
  exact mfe_mapsEq (mapFrameEq_refl st) (maps_pushHeap st [])

theorem mapFrameEq_unsetHeadRepair (st : St) (thisId mapId nn : Nat) :
    MapFrameEq st (unsetHeadRepair st thisId mapId nn) := by
  unfold unsetHeadRepair
  dsimp only
  repeat' split
  all_goals
    repeat
      first
      | exact mapFrameEq_refl _
      | refine mfe_updMapAt _ _ (fun _ => ⟨rfl, rfl⟩) ?_
      | refine mfe_mapsEq ?_ (maps_bindNodes _ _ _ _)
      | refine mfe_mapsEq ?_ (maps_updateHeapMap _ _ _)
      | refine mfe_mapsEq ?_ (maps_makeMapNode _ _ _ _ _ _)

theorem mapFrameEq_unsetTailRepair (st : St) (thisId mapId pp : Nat) :
    MapFrameEq st (unsetTailRepair st thisId mapId pp) := by
  unfold unsetTailRepair
  dsimp only
  repeat' split
  all_goals
    repeat
      first
      | exact mapFrameEq_refl _
      | refine mfe_updMapAt _ _ (fun _ => ⟨rfl, rfl⟩) ?_
      | refine mfe_mapsEq ?_ (maps_bindNodes _ _ _ _)
      | refine mfe_mapsEq ?_ (maps_updateHeapMap _ _ _)
      | refine mfe_mapsEq ?_ (maps_makeMapNode _ _ _ _ _ _)

theorem mapFrameEq_baseUnset (st : St) (thisId : Nat) (key : String) :
    MapFrameEq st ((baseUnset st thisId key).1) := by
  unfold baseUnset
  dsimp only
  split
  · exact mapFrameEq_refl _
  · have horphan : MapFrameEq st
        (addImmutableLinkedOrderedMapOrphanNode (forkMap st thisId).1 (forkMap st thisId).2 key) :=
      mfe_mapsEq (mapFrameEq_forkMap st thisId) (maps_addOrphan _ _ _)
    split
    · refine mfe_updMapAt _ _ (fun _ => ⟨rfl, rfl⟩) ?_
      exact horphan
    · refine mfe_updMapAt _ _ (fun _ => ⟨rfl, rfl⟩) ?_
      exact mapFrameEq_trans horphan (mapFrameEq_unsetHeadRepair _ _ _ _)
    · show MapFrameEq st
          ((unsetTailRepair
              (addImmutableLinkedOrderedMapOrphanNode (forkMap st thisId).1 (forkMap st thisId).2
                key) thisId (forkMap st thisId).2 _).updMapAt (forkMap st thisId).2
            (fun m => { m with length := m.length - 1 }))
      refine mfe_updMapAt _ _ (fun _ => ⟨rfl, rfl⟩) ?_
      exact mapFrameEq_trans horphan (mapFrameEq_unsetTailRepair _ _ _ _)
    · show MapFrameEq st
          ((bindNodes
              (addImmutableLinkedOrderedMapOrphanNode (forkMap st thisId).1 (forkMap st thisId).2
                key) (forkMap st thisId).2 _ _).updMapAt (forkMap st thisId).2
            (fun m => { m with length := m.length - 1 }))
      refine mfe_updMapAt _ _ (fun _ => ⟨rfl, rfl⟩) ?_
      exact mfe_mapsEq horphan (maps_bindNodes _ _ _ _)

set_option maxHeartbeats 1000000 in
theorem mapFrameEq_replaceSpliceExistent (st : St) (thisId mapId nid enk newNode : Nat)
    (previous next : Option Nat) (value : Option Int) :
    MapFrameEq st (replaceSpliceExistent st thisId mapId nid enk newNode previous next value) := by
  unfold replaceSpliceExistent
  dsimp only
  repeat' split
  all_goals
    repeat
      first
      | exact mapFrameEq_refl _
      | refine mfe_updMapAt _ _ (fun _ => ⟨rfl, rfl⟩) ?_
      | refine mfe_mapsEq ?_ (maps_bindNodes _ _ _ _)

theorem mapFrameEq_replacePositionNewNode (st : St) (mapId newNode : Nat)
    (previous next : Option Nat) :
    MapFrameEq st (replacePositionNewNode st mapId newNode previous next) := by
  unfold replacePositionNewNode
  dsimp only
  repeat' split
  all_goals
    repeat
      first
      | exact mapFrameEq_refl _
      | refine mfe_updMapAt _ _ (fun _ => ⟨rfl, rfl⟩) ?_
      | refine mfe_mapsEq ?_ (maps_bindNodes _ _ _ _)

set_option maxHeartbeats 1000000 in
theorem mapFrameEq_replaceAddMissing (st : St) (thisId mapId : Nat) (key : String)
    (value : Option Int) (pm : Bool) :
    MapFrameEq st (replaceAddMissing st thisId mapId key value pm) := by
  unfold replaceAddMissing
  dsimp only
  repeat' split
  all_goals
    repeat
      first
      | exact mapFrameEq_refl _
      | refine mfe_updMapAt _ _ (fun _ => ⟨rfl, rfl⟩) ?_
      | refine mfe_mapsEq ?_ (maps_bindNodes _ _ _ _)
      | refine mfe_mapsEq ?_ (maps_updateHeapMap _ _ _)
      | refine mfe_mapsEq ?_ (maps_makeMapNode _ _ _ _ _ _)

theorem mapFrameEq_replaceFound (st : St) (thisId mapId nid : Nat) (oldKey key : String)
    (value : Option Int) :
    MapFrameEq st (replaceFound st thisId mapId nid oldKey key value) := by
  unfold replaceFound
  dsimp only
  have hmk : MapFrameEq st (makeMapNode st mapId none none key value).1 :=
    mfe_mapsEq (mapFrameEq_refl st) (maps_makeMapNode _ _ _ _ _ _)
  have horphan : MapFrameEq st
      (addImmutableLinkedOrderedMapOrphanNode (makeMapNode st mapId none none key value).1
        mapId oldKey) :=
    mfe_mapsEq hmk (maps_addOrphan _ _ _)
  split
  · split
    · refine mfe_mapsEq ?_ (maps_updateHeapMap _ _ _)
      refine mfe_updMapAt _ _ (fun _ => ⟨rfl, rfl⟩) ?_
      exact mapFrameEq_trans horphan (mapFrameEq_replaceSpliceExistent _ _ _ _ _ _ _ _ _)
    · refine mfe_mapsEq ?_ (maps_updateHeapMap _ _ _)
      exact mapFrameEq_trans horphan (mapFrameEq_replacePositionNewNode _ _ _ _ _)
  · refine mfe_mapsEq ?_ (maps_updateHeapMap _ _ _)
    exact mapFrameEq_trans hmk (mapFrameEq_replacePositionNewNode _ _ _ _ _)

theorem mapFrameEq_baseReplace (st : St) (thisId : Nat) (oldKey : String)
    (item : String × Option Int) (addMissing prependMissing : Bool) :
    MapFrameEq st ((baseReplace st thisId oldKey item addMissing prependMissing).1) := by
  unfold baseReplace
  dsimp only
  split
  · split
    · exact mapFrameEq_trans (mapFrameEq_forkMap st thisId)
        (mapFrameEq_replaceAddMissing _ _ _ _ _ _)
    · exact mapFrameEq_refl _
  · split
    · exact mapFrameEq_trans (mapFrameEq_forkMap st thisId)
        (mapFrameEq_replaceFound _ _ _ _ _ _ _)
    · exact mapFrameEq_refl _

theorem mapFrameEq_baseEmpty (st : St) (thisId : Nat) :
    MapFrameEq st ((baseEmpty st thisId).1) := by
  unfold baseEmpty
  dsimp only
  repeat' split
  all_goals
    repeat
      first
      | exact mapFrameEq_refl _
      | refine mfe_updMapAt _ _ (fun _ => ⟨rfl, rfl⟩) ?_
      | exact mapFrameEq_factory _ _ _

theorem mapFrameEq_baseMut (st : St) (thisId : Nat) (c : MutCall) :
    MapFrameEq st ((baseMut st thisId c).1) := by
  cases c with
  | mset items pm => exact mapFrameEq_baseSet st thisId items pm
  | mreplace oldKey it am pm => exact mapFrameEq_baseReplace st thisId oldKey it am pm
  | munset key => exact mapFrameEq_baseUnset st thisId key
  | mempty => exact mapFrameEq_baseEmpty st thisId

theorem mapFrame_updMapAt {st st' : St} (i : Nat) (f : MapObj → MapObj)
    (hf : ∀ m, (f m).mode = m.mode ∧
      (m.mutationOccurred = true → (f m).mutationOccurred = true))
    (h : MapFrame st st') : MapFrame st (st'.updMapAt i f) := by
  refine ⟨le_trans h.1 (by simp [St.updMapAt]), fun j hj => ?_⟩
  by_cases hij : i = j
  · subst hij
    by_cases hlt : i < st'.maps.length
    · rw [mapAt_updMapAt_self st' i f hlt]
      obtain ⟨hm, hfl⟩ := h.2 i hj
      exact ⟨(hf _).1.trans hm, fun ht => (hf _).2 (hfl ht)⟩
    · unfold St.updMapAt St.mapAt
      rw [List.set_eq_of_length_le (by omega)]
      exact h.2 i hj
  · rw [mapAt_updMapAt_ne st' i j f hij]
    exact h.2 j hj

theorem mapFrame_armMap {st st' : St} (i : Nat) (h : MapFrame st st') :
    MapFrame st (armMap st' i) :=
  mapFrame_updMapAt i _ (fun _ => ⟨rfl, fun _ => rfl⟩) h

theorem mapFrame_runMut (st : St) (thisId : Nat) (c : MutCall) :
    MapFrame st ((runMut st thisId c).1) := by
  unfold runMut
  dsimp only
  rcases hm : (st.mapAt thisId).mode <;> simp only [hm]
  case multiway => exact (mapFrameEq_baseMut st thisId c).toFrame
  all_goals
    split
    · exact mapFrame_refl st
    · split
      · exact mapFrame_armMap thisId (mapFrameEq_baseMut st thisId c).toFrame
      · exact (mapFrameEq_baseMut st thisId c).toFrame

theorem mapFrame_execOp (st : St) (op : Op) : MapFrame st (execOp st op) := by
  cases op with
  | opMut target c => exact mapFrame_runMut st target c
  | opRead target rc => exact mapFrame_refl st
  | opFactory items modeOpt => exact (mapFrameEq_factory st items modeOpt).toFrame

theorem mapFrame_execOps (st : St) (ops : List Op) : MapFrame st (execOps st ops) := by
  induction ops generalizing st with
  | nil => exact mapFrame_refl st
  | cons op rest ih => exact mapFrame_trans (mapFrame_execOp st op) (ih (execOp st op))

/-! ### New-map tracking

For the gate claims we also track the map objects allocated by a mutation:
every map object the base engine pushes starts with
`mutationOperationOccurred = false` and carries the mode of the map it was
forked from (or, for `empty`, the same mode round-tripped through the
factory). -/

theorem listGetD_append_self {α : Type} (l : List α) (a d : α) :
    (l ++ [a]).getD l.length d = a := by
  induction l with
  | nil => rfl
  | cons b t ih => exact ih

theorem mapAt_pushMap_self (st : St) (m : MapObj) :
    ((st.pushMap m).1).mapAt st.maps.length = m :=
  listGetD_append_self st.maps m default

theorem maps_length_updMapAt (st : St) (i : Nat) (f : MapObj → MapObj) :
    (st.updMapAt i f).maps.length = st.maps.length := by
  simp [St.updMapAt]

theorem maps_length_pushMap (st : St) (m : MapObj) :
    ((st.pushMap m).1).maps.length = st.maps.length + 1 := by
  simp [St.pushMap]

theorem forkMap_snd (st : St) (thisId : Nat) : (forkMap st thisId).2 = st.maps.length := by
  simp only [forkMap]
  rcases hm : (st.mapAt thisId).mode <;> simp [hm, St.pushMap]

theorem maps_length_forkMap (st : St) (thisId : Nat) :
    ((forkMap st thisId).1).maps.length = st.maps.length + 1 := by
  simp only [forkMap]
  rcases hm : (st.mapAt thisId).mode <;>
    simp [hm, St.pushMap, maps_length_updMapAt, St.updMapAt]

theorem fork_like_fresh (st : St) (thisId : Nat) (fr : MapObj) (f1 f2 : MapObj → MapObj)
    (h1 : FrameOkF f1) (h2 : FrameOkF f2) :
    ((((st.pushMap fr).1.updMapAt thisId f1).updMapAt (st.pushMap fr).2 f2).mapAt
        (st.pushMap fr).2).mode = fr.mode ∧
    ((((st.pushMap fr).1.updMapAt thisId f1).updMapAt (st.pushMap fr).2 f2).mapAt
        (st.pushMap fr).2).mutationOccurred = fr.mutationOccurred := by
  have hlen1 : (st.pushMap fr).1.maps.length = st.maps.length + 1 := maps_length_pushMap st fr
  have hlen2 : ((st.pushMap fr).1.updMapAt thisId f1).maps.length = st.maps.length + 1 := by
    rw [maps_length_updMapAt, hlen1]
  have hp2 : (st.pushMap fr).2 = st.maps.length := rfl
  rw [hp2]
  rw [mapAt_updMapAt_self _ _ _ (by rw [hlen2]; omega)]
  obtain ⟨hmod, hflag⟩ :=
    (mfe_updMapAt thisId f1 h1 (mapFrameEq_refl (st.pushMap fr).1)).2
      st.maps.length (by rw [hlen1]; omega)
  constructor
  · rw [(h2 _).1, hmod, mapAt_pushMap_self]
  · rw [(h2 _).2, hflag, mapAt_pushMap_self]

theorem forkMap_fresh (st : St) (thisId : Nat) :
    ((forkMap st thisId).1.mapAt (forkMap st thisId).2).mode = (st.mapAt thisId).mode ∧
    ((forkMap st thisId).1.mapAt (forkMap st thisId).2).mutationOccurred = false := by
  simp only [forkMap]
  rcases hm : (st.mapAt thisId).mode <;> simp only [hm]
  case multiway =>
    exact fork_like_fresh st thisId _ _ _ (fun _ => ⟨rfl, rfl⟩) (fun _ => ⟨rfl, rfl⟩)
  all_goals
    constructor
    · show ((st.pushMap _).1.mapAt st.maps.length).mode = _
      rw [mapAt_pushMap_self]
    · show ((st.pushMap _).1.mapAt st.maps.length).mutationOccurred = false
      rw [mapAt_pushMap_self]

theorem nmo_refl (st : St) (mode0 : Mode) : NewMapsOk st st mode0 :=
  fun _ h1 h2 => absurd (lt_of_le_of_lt h1 h2) (lt_irrefl _)

theorem nmo_mapsEq {st0 st' st'' : St} {mode0 : Mode} (h : NewMapsOk st0 st' mode0)
    (he : st''.maps = st'.maps) : NewMapsOk st0 st'' mode0 := by
  intro i h1 h2
  have hm : st''.mapAt i = st'.mapAt i := by unfold St.mapAt; rw [he]
  rw [hm]
  exact h i h1 (by rw [← show st''.maps.length = st'.maps.length by rw [he]]; exact h2)

theorem nmo_updMapAt {st0 st' : St} {mode0 : Mode} (i : Nat) (f : MapObj → MapObj)
    (hf : FrameOkF f) (h : NewMapsOk st0 st' mode0) :
    NewMapsOk st0 (st'.updMapAt i f) mode0 := by
  intro j h1 h2
  rw [maps_length_updMapAt] at h2
  by_cases hij : i = j
  · subst hij
    by_cases hlt : i < st'.maps.length
    · rw [mapAt_updMapAt_self st' i f hlt]
      obtain ⟨ha, hb⟩ := h i h1 hlt
      exact ⟨(hf _).1.trans ha, (hf _).2.trans hb⟩
    · exact absurd h2 hlt
  · rw [mapAt_updMapAt_ne st' i j f hij]
    exact h j h1 h2

theorem nmo_pushMap {st0 st' : St} {mode0 : Mode} (m : MapObj)
    (hm : m.mode = mode0 ∧ m.mutationOccurred = false)
    (h : NewMapsOk st0 st' mode0) : NewMapsOk st0 ((st'.pushMap m).1) mode0 := by
  intro i h1 h2
  rw [maps_length_pushMap] at h2
  by_cases hlt : i < st'.maps.length
  · rw [mapAt_pushMap_lt st' m i hlt]
    exact h i h1 hlt
  · have : i = st'.maps.length := by omega
    subst this
    rw [mapAt_pushMap_self]
    exact hm

theorem nmo_forkMap {st0 st' : St} {mode0 : Mode} (thisId : Nat)
    (hthis : (st'.mapAt thisId).mode = mode0)
    (h : NewMapsOk st0 st' mode0) : NewMapsOk st0 ((forkMap st' thisId).1) mode0 := by
  simp only [forkMap]
  rcases hm : (st'.mapAt thisId).mode <;> simp only [hm] <;> rw [hm] at hthis
  case multiway =>
    exact nmo_updMapAt _ _ (fun _ => ⟨rfl, rfl⟩)
      (nmo_updMapAt _ _ (fun _ => ⟨rfl, rfl⟩) (nmo_pushMap _ ⟨hthis, rfl⟩ h))
  all_goals exact nmo_pushMap _ ⟨hthis, rfl⟩ h

theorem nmo_ensureFork {st0 st' : St} {mode0 : Mode} (thisId : Nat) (mo : Option Nat)
    (hthis : (st'.mapAt thisId).mode = mode0)
    (h : NewMapsOk st0 st' mode0) : NewMapsOk st0 ((ensureFork st' thisId mo).1) mode0 := by
  cases mo with
  | none => exact nmo_forkMap thisId hthis h
  | some mid => exact h

theorem inv_foldl {σ β : Type} (P : σ → Prop) (f : σ → β → σ)
    (hf : ∀ s b, P s → P (f s b)) :
    ∀ (l : List β) (s : σ), P s → P (l.foldl f s)
  | [], _, hs => hs
  | b :: l, s, hs => inv_foldl P f hf l (f s b) (hf s b hs)

set_option maxHeartbeats 1000000 in
theorem nmo_setStep {st0 : St} {mode0 : Mode} (thisId : Nat) (pm : Bool) (s : SetLoopSt)
    (item : String × Option Int)
    (hthis : (s.st.mapAt thisId).mode = mode0)
    (h : NewMapsOk st0 s.st mode0) :
    NewMapsOk st0 (setStep thisId pm s item).st mode0 := by
  unfold setStep
  dsimp only
  repeat' split
  all_goals
    repeat
      first
      | exact h
      | refine nmo_updMapAt _ _ (fun _ => ⟨rfl, rfl⟩) ?_
      | refine nmo_mapsEq ?_ (maps_bindNodes _ _ _ _)
      | refine nmo_mapsEq ?_ (maps_updateHeapMap _ _ _)
      | refine nmo_mapsEq ?_ (maps_makeMapNode _ _ _ _ _ _)
      | exact nmo_ensureFork thisId _ hthis h

set_option maxHeartbeats 1000000 in
theorem nmo_baseSet (st : St) (thisId : Nat) (items : List (String × Option Int)) (pm : Bool)
    (hv : thisId < st.maps.length) :
    NewMapsOk st ((baseSet st thisId items pm).1) ((st.mapAt thisId).mode) := by
  unfold baseSet
  have hP := inv_foldl
    (fun s : SetLoopSt => thisId < s.st.maps.length ∧
      (s.st.mapAt thisId).mode = (st.mapAt thisId).mode ∧
      NewMapsOk st s.st ((st.mapAt thisId).mode))
    (setStep thisId pm)
    (fun s b hs => by
      have hf := mapFrameEq_setStep thisId pm s b
      exact ⟨lt_of_lt_of_le hs.1 hf.1,
        ((hf.2 thisId hs.1).1).trans hs.2.1,
        nmo_setStep thisId pm s b hs.2.1 hs.2.2⟩)
    items.reverse
    { st := st, mapOpt := none, justForked := false, inserted := [], updated := [],
      keysSeen := [], firstPrepend := true, appendOldTail := none, lastPrepend := none }
    ⟨hv, rfl, nmo_refl st _⟩
  dsimp only
  repeat' split
  all_goals
    repeat
      first
      | exact nmo_refl st _
      | exact hP.2.2
      | refine nmo_updMapAt _ _ (fun _ => ⟨rfl, rfl⟩) ?_
      | refine nmo_mapsEq ?_ (maps_bindNodes _ _ _ _)

set_option maxHeartbeats 1000000 in
theorem nmo_unsetHeadRepair {st0 st' : St} {mode0 : Mode} (thisId mapId nn : Nat)
    (h : NewMapsOk st0 st' mode0) :
    NewMapsOk st0 (unsetHeadRepair st' thisId mapId nn) mode0 := by
  unfold unsetHeadRepair
  dsimp only
  repeat' split
  all_goals
    repeat
      first
      | exact h
      | refine nmo_updMapAt _ _ (fun _ => ⟨rfl, rfl⟩) ?_
      | refine nmo_mapsEq ?_ (maps_bindNodes _ _ _ _)
      | refine nmo_mapsEq ?_ (maps_updateHeapMap _ _ _)
      | refine nmo_mapsEq ?_ (maps_makeMapNode _ _ _ _ _ _)

set_option maxHeartbeats 1000000 in
theorem nmo_unsetTailRepair {st0 st' : St} {mode0 : Mode} (thisId mapId pp : Nat)
    (h : NewMapsOk st0 st' mode0) :
    NewMapsOk st0 (unsetTailRepair st' thisId mapId pp) mode0 := by
  unfold unsetTailRepair
  dsimp only
  repeat' split
  all_goals
    repeat
      first
      | exact h
      | refine nmo_updMapAt _ _ (fun _ => ⟨rfl, rfl⟩) ?_
      | refine nmo_mapsEq ?_ (maps_bindNodes _ _ _ _)
      | refine nmo_mapsEq ?_ (maps_updateHeapMap _ _ _)
      | refine nmo_mapsEq ?_ (maps_makeMapNode _ _ _ _ _ _)

set_option maxHeartbeats 1000000 in
theorem nmo_baseUnset (st : St) (thisId : Nat) (key : String) (_hv : thisId < st.maps.length) :
    NewMapsOk st ((baseUnset st thisId key).1) ((st.mapAt thisId).mode) := by
  unfold baseUnset
  dsimp only
  split
  · exact nmo_refl st _
  · have horphan : NewMapsOk st
        (addImmutableLinkedOrderedMapOrphanNode (forkMap st thisId).1 (forkMap st thisId).2 key)
        ((st.mapAt thisId).mode) :=
      nmo_mapsEq (nmo_forkMap thisId rfl (nmo_refl st _)) (maps_addOrphan _ _ _)
    split
    · refine nmo_updMapAt _ _ (fun _ => ⟨rfl, rfl⟩) ?_
      exact horphan
    · refine nmo_updMapAt _ _ (fun _ => ⟨rfl, rfl⟩) ?_
      exact nmo_unsetHeadRepair _ _ _ horphan
    · show NewMapsOk st
          ((unsetTailRepair
              (addImmutableLinkedOrderedMapOrphanNode (forkMap st thisId).1 (forkMap st thisId).2
                key) thisId (forkMap st thisId).2 _).updMapAt (forkMap st thisId).2
            (fun m => { m with length := m.length - 1 })) ((st.mapAt thisId).mode)
      refine nmo_updMapAt _ _ (fun _ => ⟨rfl, rfl⟩) ?_
      exact nmo_unsetTailRepair _ _ _ horphan
    · show NewMapsOk st
          ((bindNodes
              (addImmutableLinkedOrderedMapOrphanNode (forkMap st thisId).1 (forkMap st thisId).2
                key) (forkMap st thisId).2 _ _).updMapAt (forkMap st thisId).2
            (fun m => { m with length := m.length - 1 })) ((st.mapAt thisId).mode)
      refine nmo_updMapAt _ _ (fun _ => ⟨rfl, rfl⟩) ?_
      exact nmo_mapsEq horphan (maps_bindNodes _ _ _ _)

set_option maxHeartbeats 1000000 in
theorem nmo_replaceSpliceExistent {st0 st' : St} {mode0 : Mode}
    (thisId mapId nid enk newNode : Nat) (previous next : Option Nat) (value : Option Int)
    (h : NewMapsOk st0 st' mode0) :
    NewMapsOk st0 (replaceSpliceExistent st' thisId mapId nid enk newNode previous next value)
      mode0 := by
  unfold replaceSpliceExistent
  dsimp only
  repeat' split
  all_goals
    repeat
      first
      | exact h
      | refine nmo_updMapAt _ _ (fun _ => ⟨rfl, rfl⟩) ?_
      | refine nmo_mapsEq ?_ (maps_bindNodes _ _ _ _)

set_option maxHeartbeats 1000000 in
theorem nmo_replacePositionNewNode {st0 st' : St} {mode0 : Mode} (mapId newNode : Nat)
    (previous next : Option Nat) (h : NewMapsOk st0 st' mode0) :
    NewMapsOk st0 (replacePositionNewNode st' mapId newNode previous next) mode0 := by
  unfold replacePositionNewNode
  dsimp only
  repeat' split
  all_goals
    repeat
      first
      | exact h
      | refine nmo_updMapAt _ _ (fun _ => ⟨rfl, rfl⟩) ?_
      | refine nmo_mapsEq ?_ (maps_bindNodes _ _ _ _)

set_option maxHeartbeats 1000000 in
theorem nmo_replaceAddMissing {st0 st' : St} {mode0 : Mode} (thisId mapId : Nat)
    (key : String) (value : Option Int) (pm : Bool) (h : NewMapsOk st0 st' mode0) :
    NewMapsOk st0 (replaceAddMissing st' thisId mapId key value pm) mode0 := by
  unfold replaceAddMissing
  dsimp only
  repeat' split
  all_goals
    repeat
      first
      | exact h
      | refine nmo_updMapAt _ _ (fun _ => ⟨rfl, rfl⟩) ?_
      | refine nmo_mapsEq ?_ (maps_bindNodes _ _ _ _)
      | refine nmo_mapsEq ?_ (maps_updateHeapMap _ _ _)
      | refine nmo_mapsEq ?_ (maps_makeMapNode _ _ _ _ _ _)

set_option maxHeartbeats 1000000 in
theorem nmo_replaceFound {st0 st' : St} {mode0 : Mode} (thisId mapId nid : Nat)
    (oldKey key : String) (value : Option Int) (h : NewMapsOk st0 st' mode0) :
    NewMapsOk st0 (replaceFound st' thisId mapId nid oldKey key value) mode0 := by
  unfold replaceFound
  dsimp only
  have hmk : NewMapsOk st0 (makeMapNode st' mapId none none key value).1 mode0 :=
    nmo_mapsEq h (maps_makeMapNode _ _ _ _ _ _)
  have horphan : NewMapsOk st0
      (addImmutableLinkedOrderedMapOrphanNode (makeMapNode st' mapId none none key value).1
        mapId oldKey) mode0 :=
    nmo_mapsEq hmk (maps_addOrphan _ _ _)
  split
  · split
    · refine nmo_mapsEq ?_ (maps_updateHeapMap _ _ _)
      refine nmo_updMapAt _ _ (fun _ => ⟨rfl, rfl⟩) ?_
      exact nmo_replaceSpliceExistent _ _ _ _ _ _ _ _ horphan
    · refine nmo_mapsEq ?_ (maps_updateHeapMap _ _ _)
      exact nmo_replacePositionNewNode _ _ _ _ horphan
  · refine nmo_mapsEq ?_ (maps_updateHeapMap _ _ _)
    exact nmo_replacePositionNewNode _ _ _ _ hmk

set_option maxHeartbeats 1000000 in
theorem nmo_baseReplace (st : St) (thisId : Nat) (oldKey : String)
    (item : String × Option Int) (addMissing prependMissing : Bool)
    (_hv : thisId < st.maps.length) :
    NewMapsOk st ((baseReplace st thisId oldKey item addMissing prependMissing).1)
      ((st.mapAt thisId).mode) := by
  unfold baseReplace
  dsimp only
  split
  · split
    · exact nmo_replaceAddMissing _ _ _ _ _ (nmo_forkMap thisId rfl (nmo_refl st _))
    · exact nmo_refl st _
  · split
    · exact nmo_replaceFound _ _ _ _ _ _ (nmo_forkMap thisId rfl (nmo_refl st _))
    · exact nmo_refl st _

theorem maps_length_appendInitialStep (mapId : Nat) (acc : St × List String × Nat)
    (item : String × Option Int) :
    ((appendInitialStep mapId acc item).1).maps.length = acc.1.maps.length := by
  unfold appendInitialStep
  dsimp only
  repeat' split
  all_goals
    simp [maps_length_updMapAt, maps_bindNodes, maps_updateHeapMap, maps_makeMapNode]

theorem maps_length_foldl_appendInitialStep (mapId : Nat)
    (l : List (String × Option Int)) (a : St × List String × Nat) :
    ((l.foldl (appendInitialStep mapId) a).1).maps.length = a.1.maps.length := by
  induction l generalizing a with
  | nil => rfl
  | cons b t ih => rw [List.foldl_cons, ih, maps_length_appendInitialStep]

set_option maxHeartbeats 1000000 in
theorem maps_length_appendInitialItemsToMap (st : St) (mapId : Nat)
    (items : List (String × Option Int)) :
    (appendInitialItemsToMap st mapId items).maps.length = st.maps.length := by
  unfold appendInitialItemsToMap
  dsimp only
  repeat' split
  all_goals
    simp only [maps_length_foldl_appendInitialStep, maps_length_updMapAt, maps_bindNodes,
      maps_updateHeapMap, maps_makeMapNode]

theorem factory_snd (st : St) (items : List (String × Option Int)) (mo : Option Int) :
    (newImmutableLinkedOrderedMap st items mo).2 = st.maps.length := rfl

theorem maps_length_factory (st : St) (items : List (String × Option Int)) (mo : Option Int) :
    (newImmutableLinkedOrderedMap st items mo).1.maps.length = st.maps.length + 1 := by
  unfold newImmutableLinkedOrderedMap
  dsimp only
  rw [maps_length_appendInitialItemsToMap, maps_length_pushMap]
  rfl

theorem factory_fresh_aux (stp : St) (m0 : MapObj) (items : List (String × Option Int)) :
    ((appendInitialItemsToMap (stp.pushMap m0).1 (stp.pushMap m0).2 items).mapAt
        (stp.pushMap m0).2).mode = m0.mode ∧
    ((appendInitialItemsToMap (stp.pushMap m0).1 (stp.pushMap m0).2 items).mapAt
        (stp.pushMap m0).2).mutationOccurred = m0.mutationOccurred := by
  have h2 : (stp.pushMap m0).2 = stp.maps.length := rfl
  have hlt : (stp.pushMap m0).2 < (stp.pushMap m0).1.maps.length := by
    rw [h2, maps_length_pushMap]
    omega
  obtain ⟨ha, hb⟩ :=
    (mapFrameEq_appendInitialItemsToMap (stp.pushMap m0).1 (stp.pushMap m0).2 items).2
      (stp.pushMap m0).2 hlt
  constructor
  · rw [ha, h2, mapAt_pushMap_self]
  · rw [hb, h2, mapAt_pushMap_self]

theorem factory_fresh (st : St) (items : List (String × Option Int)) (mo : Option Int) :
    ((newImmutableLinkedOrderedMap st items mo).1.mapAt
        (newImmutableLinkedOrderedMap st items mo).2).mode =
      (modeForNumber (resolveModeNumber mo)).getD Mode.single ∧
    ((newImmutableLinkedOrderedMap st items mo).1.mapAt
        (newImmutableLinkedOrderedMap st items mo).2).mutationOccurred = false := by
  unfold newImmutableLinkedOrderedMap
  dsimp only
  exact factory_fresh_aux _ _ items

theorem nmo_factory (st : St) (items : List (String × Option Int)) (mo : Option Int)
    (mode0 : Mode) (hm : (modeForNumber (resolveModeNumber mo)).getD Mode.single = mode0) :
    NewMapsOk st ((newImmutableLinkedOrderedMap st items mo).1) mode0 := by
  intro i h1 h2
  rw [maps_length_factory] at h2
  have hi : i = st.maps.length := by omega
  subst hi
  rw [← factory_snd st items mo]
  obtain ⟨ha, hb⟩ := factory_fresh st items mo
  exact ⟨ha.trans hm, hb⟩

theorem nmo_baseEmpty (st : St) (thisId : Nat) :
    NewMapsOk st ((baseEmpty st thisId).1) ((st.mapAt thisId).mode) := by
  unfold baseEmpty
  dsimp only
  split
  · exact nmo_refl st _
  · refine nmo_updMapAt _ _ (fun _ => ⟨rfl, rfl⟩) ?_
    refine nmo_factory _ _ _ _ ?_
    rcases hmode : (st.mapAt thisId).mode <;>
      simp [hmode, resolveModeNumber, modeForNumber, DEFAULT_MAP_MODE]

theorem nmo_baseMut (st : St) (thisId : Nat) (c : MutCall) (hv : thisId < st.maps.length) :
    NewMapsOk st ((baseMut st thisId c).1) ((st.mapAt thisId).mode) := by
  cases c with
  | mset items pm => exact nmo_baseSet st thisId items pm hv
  | mreplace oldKey it am pm => exact nmo_baseReplace st thisId oldKey it am pm hv
  | munset key => exact nmo_baseUnset st thisId key hv
  | mempty => exact nmo_baseEmpty st thisId

theorem maps_length_unsetHeadRepair (st : St) (thisId mapId nn : Nat) :
    (unsetHeadRepair st thisId mapId nn).maps.length = st.maps.length := by
  unfold unsetHeadRepair
  dsimp only
  repeat' split
  all_goals
    simp only [maps_length_updMapAt, maps_bindNodes, maps_updateHeapMap, maps_makeMapNode]

theorem maps_length_unsetTailRepair (st : St) (thisId mapId pp : Nat) :
    (unsetTailRepair st thisId mapId pp).maps.length = st.maps.length := by
  unfold unsetTailRepair
  dsimp only
  repeat' split
  all_goals
    simp only [maps_length_updMapAt, maps_bindNodes, maps_updateHeapMap, maps_makeMapNode]

theorem baseUnset_result (st : St) (thisId : Nat) (key : String) :
    (baseUnset st thisId key).2 = thisId ∨
    ((baseUnset st thisId key).2 = st.maps.length ∧
      st.maps.length < (baseUnset st thisId key).1.maps.length) := by
  unfold baseUnset
  dsimp only
  repeat' split
  all_goals try (left; rfl)
  all_goals
    right
    refine ⟨forkMap_snd st thisId, ?_⟩
    simp only [maps_length_updMapAt, maps_length_unsetHeadRepair, maps_length_unsetTailRepair,
      maps_bindNodes, maps_addOrphan, maps_length_forkMap]
    omega

theorem maps_length_replaceSpliceExistent (st : St) (thisId mapId nid enk newNode : Nat)
    (previous next : Option Nat) (value : Option Int) :
    (replaceSpliceExistent st thisId mapId nid enk newNode previous next value).maps.length =
      st.maps.length := by
  unfold replaceSpliceExistent
  dsimp only
  repeat' split
  all_goals
    simp only [maps_length_updMapAt, maps_bindNodes]

theorem maps_length_replacePositionNewNode (st : St) (mapId newNode : Nat)
    (previous next : Option Nat) :
    (replacePositionNewNode st mapId newNode previous next).maps.length = st.maps.length := by
  unfold replacePositionNewNode
  dsimp only
  repeat' split
  all_goals
    simp only [maps_length_updMapAt, maps_bindNodes]

set_option maxHeartbeats 1000000 in
theorem maps_length_replaceAddMissing (st : St) (thisId mapId : Nat) (key : String)
    (value : Option Int) (pm : Bool) :
    (replaceAddMissing st thisId mapId key value pm).maps.length = st.maps.length := by
  unfold replaceAddMissing
  dsimp only
  repeat' split
  all_goals
    simp only [maps_length_updMapAt, maps_bindNodes, maps_updateHeapMap, maps_makeMapNode]

set_option maxHeartbeats 1000000 in
theorem maps_length_replaceFound (st : St) (thisId mapId nid : Nat) (oldKey key : String)
    (value : Option Int) :
    (replaceFound st thisId mapId nid oldKey key value).maps.length = st.maps.length := by
  unfold replaceFound
  dsimp only
  repeat' split
  all_goals
    simp only [maps_length_updMapAt, maps_bindNodes, maps_updateHeapMap, maps_makeMapNode,
      maps_length_replaceSpliceExistent, maps_length_replacePositionNewNode, maps_addOrphan]

theorem baseReplace_result (st : St) (thisId : Nat) (oldKey : String)
    (item : String × Option Int) (addMissing prependMissing : Bool) :
    (baseReplace st thisId oldKey item addMissing prependMissing).2 = thisId ∨
    ((baseReplace st thisId oldKey item addMissing prependMissing).2 = st.maps.length ∧
      st.maps.length <
        (baseReplace st thisId oldKey item addMissing prependMissing).1.maps.length) := by
  unfold baseReplace
  dsimp only
  repeat' split
  all_goals try (left; rfl)
  all_goals
    right
    refine ⟨forkMap_snd st thisId, ?_⟩
    simp only [maps_length_replaceAddMissing, maps_length_replaceFound, maps_length_forkMap]
    omega

theorem baseEmpty_result (st : St) (thisId : Nat) :
    (baseEmpty st thisId).2 = thisId ∨
    ((baseEmpty st thisId).2 = st.maps.length ∧
      st.maps.length < (baseEmpty st thisId).1.maps.length) := by
  unfold baseEmpty
  dsimp only
  split
  · left
    rfl
  · right
    constructor
    · rfl
    · show st.maps.length <
        ((newImmutableLinkedOrderedMap st [] _).1.updMapAt
          (newImmutableLinkedOrderedMap st [] _).2 _).maps.length
      rw [maps_length_updMapAt, maps_length_factory]
      omega

set_option maxHeartbeats 1600000 in
theorem setStep_range (st0 : St) (thisId : Nat) (pm : Bool) (s : SetLoopSt)
    (item : String × Option Int)
    (hP : (s.mapOpt = none ∧ s.st.maps.length = st0.maps.length) ∨
      (s.mapOpt = some st0.maps.length ∧ st0.maps.length < s.st.maps.length)) :
    ((setStep thisId pm s item).mapOpt = none ∧
      (setStep thisId pm s item).st.maps.length = st0.maps.length) ∨
    ((setStep thisId pm s item).mapOpt = some st0.maps.length ∧
      st0.maps.length < (setStep thisId pm s item).st.maps.length) := by
  unfold setStep
  dsimp only
  repeat' split
  all_goals try exact hP
  all_goals
    refine Or.inr ?_
    rcases hP with ⟨hnone, hlen⟩ | ⟨hsome, hlt⟩ <;>
      simp_all [ensureFork, maps_length_updMapAt, maps_bindNodes, maps_updateHeapMap,
        maps_makeMapNode, maps_length_forkMap, forkMap_snd]

set_option maxHeartbeats 1000000 in
theorem baseSet_result (st : St) (thisId : Nat) (items : List (String × Option Int))
    (pm : Bool) :
    (baseSet st thisId items pm).2 = thisId ∨
    ((baseSet st thisId items pm).2 = st.maps.length ∧
      st.maps.length < (baseSet st thisId items pm).1.maps.length) := by
  unfold baseSet
  have hP := inv_foldl
    (fun s : SetLoopSt =>
      (s.mapOpt = none ∧ s.st.maps.length = st.maps.length) ∨
      (s.mapOpt = some st.maps.length ∧ st.maps.length < s.st.maps.length))
    (setStep thisId pm)
    (fun s b hs => setStep_range st thisId pm s b hs)
    items.reverse
    { st := st, mapOpt := none, justForked := false, inserted := [], updated := [],
      keysSeen := [], firstPrepend := true, appendOldTail := none, lastPrepend := none }
    (Or.inl ⟨rfl, rfl⟩)
  dsimp only
  repeat' split
  all_goals try (left; rfl)
  all_goals
    rcases hP with ⟨hnone, hlen⟩ | ⟨hsome, hlt⟩ <;>
      simp_all [maps_length_updMapAt, maps_bindNodes]

theorem baseMut_result (st : St) (thisId : Nat) (c : MutCall) :
    (baseMut st thisId c).2 = thisId ∨
    ((baseMut st thisId c).2 = st.maps.length ∧
      st.maps.length < (baseMut st thisId c).1.maps.length) := by
  cases c with
  | mset items pm => exact baseSet_result st thisId items pm
  | mreplace oldKey it am pm => exact baseReplace_result st thisId oldKey it am pm
  | munset key => exact baseUnset_result st thisId key
  | mempty => exact baseEmpty_result st thisId

theorem runMut_armed_single {st : St} {mid : Nat}
    (hm : (st.mapAt mid).mode = Mode.single)
    (hf : (st.mapAt mid).mutationOccurred = true) :
    SingleModeMutationsBlocked st mid := by
  intro c
  unfold runMut
  dsimp only
  simp [hm, hf]

theorem runMut_armed_lightweight {st : St} {mid : Nat}
    (hm : (st.mapAt mid).mode = Mode.lightweight)
    (hf : (st.mapAt mid).mutationOccurred = true) :
    LightweightBlocked st mid := by
  constructor
  · intro c
    unfold runMut
    dsimp only
    simp [hm, hf]
  · intro rc
    unfold runRead
    dsimp only
    simp [hm, hf]

theorem readsSucceed_single {st : St} {mid : Nat}
    (hm : (st.mapAt mid).mode = Mode.single) : ReadsSucceed st mid := by
  intro rc
  unfold runRead
  dsimp only
  simp [hm]

theorem readsSucceed_lightweight_unarmed {st : St} {mid : Nat}
    (hm : (st.mapAt mid).mode = Mode.lightweight)
    (hf : (st.mapAt mid).mutationOccurred = false) : ReadsSucceed st mid := by
  intro rc
  unfold runRead
  dsimp only
  simp [hm, hf]

theorem runMut_single_ok {st : St} {mid : Nat} {c : MutCall} {st1 : St} {r : Nat}
    (hm : (st.mapAt mid).mode = Mode.single)
    (he : runMut st mid c = (st1, Except.ok r)) :
    (st.mapAt mid).mutationOccurred = false ∧ (baseMut st mid c).2 = r ∧
      st1 = (if (baseMut st mid c).2 ≠ mid then armMap (baseMut st mid c).1 mid
        else (baseMut st mid c).1) := by
  unfold runMut at he
  dsimp only at he
  simp only [hm] at he
  by_cases hf : (st.mapAt mid).mutationOccurred = true
  · simp [hf] at he
  · have hf' : (st.mapAt mid).mutationOccurred = false := by
      revert hf
      cases (st.mapAt mid).mutationOccurred <;> simp
    simp only [hf', Bool.false_eq_true, if_false] at he
    have h1 := congrArg Prod.fst he
    have h2 := congrArg Prod.snd he
    dsimp only at h1 h2
    exact ⟨hf', Except.ok.inj h2, h1.symm⟩

theorem runMut_lightweight_ok {st : St} {mid : Nat} {c : MutCall} {st1 : St} {r : Nat}
    (hm : (st.mapAt mid).mode = Mode.lightweight)
    (he : runMut st mid c = (st1, Except.ok r)) :
    (st.mapAt mid).mutationOccurred = false ∧ (baseMut st mid c).2 = r ∧
      st1 = (if (baseMut st mid c).2 ≠ mid then armMap (baseMut st mid c).1 mid
        else (baseMut st mid c).1) := by
  unfold runMut at he
  dsimp only at he
  simp only [hm] at he
  by_cases hf : (st.mapAt mid).mutationOccurred = true
  · simp [hf] at he
  · have hf' : (st.mapAt mid).mutationOccurred = false := by
      revert hf
      cases (st.mapAt mid).mutationOccurred <;> simp
    simp only [hf', Bool.false_eq_true, if_false] at he
    have h1 := congrArg Prod.fst he
    have h2 := congrArg Prod.snd he
    dsimp only at h1 h2
    exact ⟨hf', Except.ok.inj h2, h1.symm⟩

theorem maps_length_armMap (st : St) (i : Nat) : (armMap st i).maps.length = st.maps.length := by
  rw [armMap, maps_length_updMapAt]

/-- After an effectful gated mutation on a single- or lightweight-mode map,
the receiver's state is the armed base result. -/
theorem gated_armer_state {st : St} {mid : Nat} {c : MutCall} {st1 : St} {r : Nat}
    (hv : mid < st.maps.length)
    (hok : (baseMut st mid c).2 = r ∧
      st1 = (if (baseMut st mid c).2 ≠ mid then armMap (baseMut st mid c).1 mid
        else (baseMut st mid c).1))
    (hr : r ≠ mid) :
    mid < st1.maps.length ∧ (st1.mapAt mid).mode = (st.mapAt mid).mode ∧
      (st1.mapAt mid).mutationOccurred = true := by
  obtain ⟨hrb, hst1⟩ := hok
  have hbase := mapFrameEq_baseMut st mid c
  have hlt1 : mid < (baseMut st mid c).1.maps.length := lt_of_lt_of_le hv hbase.1
  have harm : st1 = armMap (baseMut st mid c).1 mid := by
    rw [hst1, if_pos]
    rw [hrb]
    exact hr
  refine ⟨?_, ?_, ?_⟩
  · rw [harm, maps_length_armMap]
    exact hlt1
  · rw [harm, armMap, mapAt_updMapAt_self _ _ _ hlt1]
    exact (hbase.2 mid hv).1
  · rw [harm, armMap, mapAt_updMapAt_self _ _ _ hlt1]

/-- C7: on a single-mode map, once an effectful mutation (`set`, `unset`,
`replace` or `empty` returning a map other than the receiver) has occurred,
every further mutation method on the same map throws the single-mode error
and leaves the state untouched, because the gate check runs before the base
mutation; read methods keep working. A mutation that returns the receiver
itself does not arm the gate, and reads on a single-mode map always
succeed. -/
theorem single_mode_mutation_gate (st : St) (mid : Nat)
    (hv : mid < st.maps.length) (hm : (st.mapAt mid).mode = Mode.single) :
    ((st.mapAt mid).mutationOccurred = true →
      SingleModeMutationsBlocked st mid ∧ ReadsSucceed st mid) ∧
    (∀ (c : MutCall) (st1 : St) (r : Nat),
      runMut st mid c = (st1, Except.ok r) → r ≠ mid →
      ∀ ops : List Op,
        SingleModeMutationsBlocked (execOps st1 ops) mid ∧
        ReadsSucceed (execOps st1 ops) mid) ∧
    (∀ (c : MutCall) (st1 : St),
      runMut st mid c = (st1, Except.ok mid) →
      (st1.mapAt mid).mutationOccurred = (st.mapAt mid).mutationOccurred) ∧
    ReadsSucceed st mid := by
  refine ⟨?_, ?_, ?_, readsSucceed_single hm⟩
  · intro hf
    exact ⟨runMut_armed_single hm hf, readsSucceed_single hm⟩
  · intro c st1 r he hr ops
    obtain ⟨hf0, hrb, hst1⟩ := runMut_single_ok hm he
    obtain ⟨hv1, hm1, hf1⟩ := gated_armer_state hv ⟨hrb, hst1⟩ hr
    have hF := mapFrame_execOps st1 ops
    have hv2 : mid < (execOps st1 ops).maps.length := lt_of_lt_of_le hv1 hF.1
    have hm2 : ((execOps st1 ops).mapAt mid).mode = Mode.single :=
      ((hF.2 mid hv1).1).trans (hm1.trans hm)
    have hf2 : ((execOps st1 ops).mapAt mid).mutationOccurred = true :=
      (hF.2 mid hv1).2 hf1
    exact ⟨runMut_armed_single hm2 hf2, readsSucceed_single hm2⟩
  · intro c st1 he
    obtain ⟨hf0, hrb, hst1⟩ := runMut_single_ok hm he
    have hcond : ¬((baseMut st mid c).2 ≠ mid) := by
      rw [hrb]
      exact fun hne => hne rfl
    rw [hst1, if_neg hcond]
    exact ((mapFrameEq_baseMut st mid c).2 mid hv).2

theorem single_mode_mutation_gate_witness :
    c7W.2 < c7W.1.maps.length ∧ (c7W.1.mapAt c7W.2).mode = Mode.single ∧
      ReadsSucceed c7W.1 c7W.2 :=
  ⟨by decide, by decide,
    (single_mode_mutation_gate c7W.1 c7W.2 (by decide) (by decide)).2.2.2⟩

/-- C8: on a lightweight-mode map, once an effectful mutation has occurred,
every subsequent operation on the receiver, mutation or read alike, throws
the lightweight-mode error; the map returned by the effectful mutation is a
freshly allocated lightweight map whose own mutation flag is clear, so reads
and one further mutation work on it. An unarmed lightweight map serves
reads, and a no-op mutation does not arm the gate. -/
theorem lightweight_mode_gate (st : St) (mid : Nat)
    (hv : mid < st.maps.length) (hm : (st.mapAt mid).mode = Mode.lightweight) :
    ((st.mapAt mid).mutationOccurred = true → LightweightBlocked st mid) ∧
    ((st.mapAt mid).mutationOccurred = false → ReadsSucceed st mid) ∧
    (∀ (c : MutCall) (st1 : St) (r : Nat),
      runMut st mid c = (st1, Except.ok r) → r ≠ mid →
      (∀ ops : List Op, LightweightBlocked (execOps st1 ops) mid) ∧
      (st1.mapAt r).mode = Mode.lightweight ∧
      (st1.mapAt r).mutationOccurred = false ∧
      ReadsSucceed st1 r) ∧
    (∀ (c : MutCall) (st1 : St),
      runMut st mid c = (st1, Except.ok mid) →
      (st1.mapAt mid).mutationOccurred = (st.mapAt mid).mutationOccurred) := by
  refine ⟨fun hf => runMut_armed_lightweight hm hf,
    fun hf => readsSucceed_lightweight_unarmed hm hf, ?_, ?_⟩
  · intro c st1 r he hr
    obtain ⟨hf0, hrb, hst1⟩ := runMut_lightweight_ok hm he
    obtain ⟨hv1, hm1, hf1⟩ := gated_armer_state hv ⟨hrb, hst1⟩ hr
    have hnew := nmo_baseMut st mid c hv
    have hres := baseMut_result st mid c
    have hrng : (baseMut st mid c).2 = st.maps.length ∧
        st.maps.length < (baseMut st mid c).1.maps.length := by
      rcases hres with h | h
      · exact absurd (hrb.symm.trans h) hr
      · exact h
    have harm : st1 = armMap (baseMut st mid c).1 mid := by
      rw [hst1, if_pos]
      rw [hrb]
      exact hr
    have hrmap : st1.mapAt r = (baseMut st mid c).1.mapAt r := by
      rw [harm, armMap]
      exact mapAt_updMapAt_ne _ _ _ _ (fun hmr => hr hmr.symm)
    have hnewr := hnew r (le_of_eq (hrb.symm.trans hrng.1).symm)
      (by rw [← hrb, hrng.1]; exact hrng.2)
    constructor
    · intro ops
      have hF := mapFrame_execOps st1 ops
      have hv2 : mid < (execOps st1 ops).maps.length := lt_of_lt_of_le hv1 hF.1
      have hm2 : ((execOps st1 ops).mapAt mid).mode = Mode.lightweight :=
        ((hF.2 mid hv1).1).trans (hm1.trans hm)
      have hf2 : ((execOps st1 ops).mapAt mid).mutationOccurred = true :=
        (hF.2 mid hv1).2 hf1
      exact runMut_armed_lightweight hm2 hf2
    · refine ⟨?_, ?_, ?_⟩
      · rw [hrmap]
        exact hnewr.1.trans hm
      · rw [hrmap]
        exact hnewr.2
      · exact readsSucceed_lightweight_unarmed (by rw [hrmap]; exact hnewr.1.trans hm)
          (by rw [hrmap]; exact hnewr.2)
  · intro c st1 he
    obtain ⟨hf0, hrb, hst1⟩ := runMut_lightweight_ok hm he
    have hcond : ¬((baseMut st mid c).2 ≠ mid) := by
      rw [hrb]
      exact fun hne => hne rfl
    rw [hst1, if_neg hcond]
    exact ((mapFrameEq_baseMut st mid c).2 mid hv).2

theorem lightweight_mode_gate_witness :
    c8W.2 < c8W.1.maps.length ∧ (c8W.1.mapAt c8W.2).mode = Mode.lightweight ∧
      ((c8W.1.mapAt c8W.2).mutationOccurred = false → ReadsSucceed c8W.1 c8W.2) :=
  ⟨by decide, by decide,
    (lightweight_mode_gate c8W.1 c8W.2 (by decide) (by decide)).2.1⟩

/-- C1: refuted as stated — the factory does not deduplicate initial items.
With `initialItems = [(a, 1), (a, 2)]` the `keysMap` filter of
`appendInitialItemsToMap` never records the tail key, because the write is
gated by the value of `map.length++`, which is `0` for the first appended
item: the resulting map shows the key `a` twice under `forEach`/`keys`, with
`length = 2`. -/
theorem initial_items_duplicate_keys_bug :
    keysOf c1Factory.1 c1Factory.2 = ["a", "a"] ∧
    ¬ (keysOf c1Factory.1 c1Factory.2).Nodup ∧
    (c1Factory.1.mapAt c1Factory.2).length = 2 ∧
    forEachEntries c1Factory.1 c1Factory.2 false = [("a", some 1), ("a", some 2)] := by
  decide

/-- C2: refuted as stated — multiway branch isolation fails once a node has
ten or more children, because `isAncestorVersionOfDescendantVersion` is a
plain string-prefix test on versions joined with `@`: the first child (version
`1`) is wrongly treated as an ancestor of the tenth child (version `10`).
Map `c2B` (version `10`) inserted only the key `b` along its chain (its own
traversal shows exactly `[b]`), yet `get a` on it observes the value `1`
inserted only along the chain of the sibling `c2A` (version `1`). -/
theorem multiway_branch_isolation_bug :
    (c2A.1.mapAt c2A.2).version = "1" ∧
    (c2B.1.mapAt c2B.2).version = "10" ∧
    isAncestorVersionOfDescendantVersion "1" "10" = true ∧
    keysOf c2B.1 c2B.2 = ["b"] ∧
    baseGet c2B.1 c2B.2 "a" = some 1 ∧
    baseGet c2B.1 c2B.2 "a" ≠ none := by
  decide

/-- C3: refuted as stated — the unset tombstone can be shadowed.  In `c3M`
(depth 1, holding only `k -> 9`) the heap entry for `k` already has an older
depth-2 layer created by a deeper sibling, stored in front of nothing in
sorted order only by insertion: `unset` stacks the orphan into the depth-2
layer, which sits behind the depth-1 layer holding `k -> 9`, so the lookup on
the unset result still returns `9` even though its `length` dropped to `0`;
the ancestor is unchanged, as the claim says. -/
theorem unset_shadowed_tombstone_bug :
    baseGet c3M.1 c3M.2 "k" = some 9 ∧
    (c3Unset.1.mapAt c3Unset.2).length = 0 ∧
    baseGet c3Unset.1 c3Unset.2 "k" = some 9 ∧
    baseGet c3Unset.1 c3Unset.2 "k" ≠ none ∧
    baseGet c3Unset.1 c3M.2 "k" = some 9 := by
  decide

/-- C4: refuted as stated — `unset` of an absent (previously tombstoned) key
is not a no-op.  After `c4U1 = unset a` (returning map 1 holding only `b`,
where `get a` is `undefined`), a second `unset a` on map 1 finds the orphan
tombstone node in the heap, so it does not take the `node == null` early
return: it returns a fresh map 2 instead of the receiver, and since the
orphan equals both head-guard candidates the repair logic empties the map —
map 2 has `length = 0` and no entries, losing `b`. -/
theorem unset_absent_key_not_noop_bug :
    c4U1.2 = Except.ok 1 ∧
    baseGet c4U1.1 1 "a" = none ∧
    keysOf c4U1.1 1 = ["b"] ∧
    c4U2.2 = Except.ok 2 ∧
    c4U2.2 ≠ Except.ok 1 ∧
    (c4U2.1.mapAt 2).length = 0 ∧
    keysOf c4U2.1 2 = [] := by
  refine ⟨rfl, rfl, rfl, rfl, ?_, rfl, rfl⟩
  intro hcontra
  have h2 : (2 : Nat) = 1 := by
    have := (rfl : c4U2.2 = Except.ok 2).symm.trans hcontra
    exact Except.ok.inj this
  exact absurd h2 (by decide)

/-- C6: refuted as stated — `replace(oldKey, item, addMissing = true)` with
`oldKey` absent consults `lookup(this, key)` before `key` is assigned (a JS
TDZ-like use of the not-yet-initialised variable, here the lookup of the
literal key `undefined`), so an existing node with the item key `a` is never
found: instead of replacing `a -> 1` in place, the call appends a second node
for `a`, yielding duplicate keys and `length = 2`. -/
theorem replace_add_missing_duplicate_bug :
    baseGet c6M.1 c6M.2 "a" = some 1 ∧
    c6R.2 = Except.ok 1 ∧
    keysOf c6R.1 1 = ["a", "a"] ∧
    (c6R.1.mapAt 1).length = 2 ∧
    baseGet c6R.1 1 "a" = some 2 := by
  exact ⟨by decide, rfl, by decide, by decide, by decide⟩

/-- C5 counterexample: one `set` call with items `[(a, 1), (a, 2)]` on a
fresh empty single-mode map stores `2` for `a` — the highest index wins, not
the lowest: the reverse walk processes the last occurrence first and the
`keysMap` filter then skips all earlier occurrences of the key. -/
theorem set_first_wins_counterexample :
    c5R.2 = Except.ok 1 ∧
    baseGet c5R.1 1 "a" = some 2 ∧
    baseGet c5R.1 1 "a" ≠ some 1 := by
  exact ⟨rfl, by decide, by decide⟩

/-- C9 counterexample: with the mode option omitted the factory produces a
single-mode map — `DEFAULT_MAP_MODE` is `SINGLE = 1` (source line 40), not
`MULTIWAY` as the spec states. -/
theorem factory_default_mode_counterexample :
    DEFAULT_MAP_MODE = 1 ∧
    ((newImmutableLinkedOrderedMap St.empty [] none).1.mapAt
        (newImmutableLinkedOrderedMap St.empty [] none).2).mode = Mode.single ∧
    Mode.single ≠ Mode.multiway := by
  decide

theorem setStep_skip (thisId : Nat) (pm : Bool) (s : SetLoopSt)
    (e : String × Option Int) (h : s.keysSeen.contains e.1 = true) :
    setStep thisId pm s e = s := by
  unfold setStep
  dsimp only
  rw [if_pos h]

theorem setStep_keysSeen (thisId : Nat) (pm : Bool) (s : SetLoopSt)
    (e : String × Option Int) (h : s.keysSeen.contains e.1 = false) :
    (setStep thisId pm s e).keysSeen = e.1 :: s.keysSeen := by
  unfold setStep
  dsimp only
  simp only [h, Bool.false_eq_true, if_false]
  repeat' split
  all_goals rfl

theorem foldl_setStep_dedup (thisId : Nat) (pm : Bool) :
    ∀ (l : List (String × Option Int)) (s : SetLoopSt),
      l.foldl (setStep thisId pm) s
        = (dedupKeysKeepFirst s.keysSeen l).foldl (setStep thisId pm) s := by
  intro l
  induction l with
  | nil => intro s; rfl
  | cons e rest ih =>
    intro s
    rcases h : s.keysSeen.contains e.1 with _ | _
    · rw [List.foldl_cons, ih (setStep thisId pm s e), setStep_keysSeen thisId pm s e h]
      simp only [dedupKeysKeepFirst]
      rw [if_neg (fun hc => Bool.noConfusion (h.symm.trans hc)), List.foldl_cons]
    · rw [List.foldl_cons, setStep_skip thisId pm s e h, ih s]
      simp only [dedupKeysKeepFirst]
      rw [if_pos h]

theorem dedupKeysKeepFirst_find (k : String) :
    ∀ (l : List (String × Option Int)) (seen : List String),
      seen.contains k = false →
      (dedupKeysKeepFirst seen l).find? (fun e => e.1 == k)
        = l.find? (fun e => e.1 == k) := by
  intro l
  induction l with
  | nil => intro seen h; rfl
  | cons e rest ih =>
    intro seen h
    by_cases hek : e.1 = k
    · have hc : seen.contains e.1 = false := by rw [hek]; exact h
      have hb : (e.1 == k) = true := by rw [hek]; simp
      simp only [dedupKeysKeepFirst]
      rw [if_neg (fun hcc => Bool.noConfusion (hc.symm.trans hcc))]
      rw [List.find?_cons_of_pos (p := fun x : String × Option Int => x.1 == k) _ hb,
        List.find?_cons_of_pos (p := fun x : String × Option Int => x.1 == k) _ hb]
    · have hb : (e.1 == k) = false := by
        simp only [beq_eq_false_iff_ne, ne_eq]
        exact hek
      rcases hc : seen.contains e.1 with _ | _
      · have h2 : (e.1 :: seen).contains k = false := by
          simp only [List.contains_cons, Bool.or_eq_false_iff]
          refine ⟨?_, h⟩
          simp only [beq_eq_false_iff_ne, ne_eq]
          exact fun hkk => hek hkk.symm
        simp only [dedupKeysKeepFirst]
        rw [if_neg (fun hcc => Bool.noConfusion (hc.symm.trans hcc))]
        rw [List.find?_cons_of_neg (p := fun x : String × Option Int => x.1 == k) _ (by simp [hb]),
          List.find?_cons_of_neg (p := fun x : String × Option Int => x.1 == k) _ (by simp [hb])]
        exact ih (e.1 :: seen) h2
      · simp only [dedupKeysKeepFirst]
        rw [if_pos hc]
        rw [List.find?_cons_of_neg (p := fun x : String × Option Int => x.1 == k) _ (by simp [hb])]
        exact ih seen h

set_option maxHeartbeats 1000000 in
/-- C5: corrected — when several entries of a `set` call share a key, the
entry with the HIGHEST index (the last one), not the lowest, determines the
stored value: `set` walks `items` in reverse and its `keysMap` filter then
skips every earlier occurrence of an already-processed key, so the whole
call behaves exactly like the call on the key-deduplicated item list that
keeps, for each key, its last occurrence (`items.reverse.find?` below is
precisely the occurrence of `k` with the highest index in `items`).  In the
factory, duplicated initial items are not resolved at all (see the C1
theorem). -/
theorem set_highest_index_wins (st : St) (thisId : Nat)
    (items : List (String × Option Int)) (pm : Bool) (h : items ≠ []) :
    baseSet st thisId items pm
      = baseSet st thisId (dedupKeysKeepFirst [] items.reverse).reverse pm ∧
    ∀ k : String,
      (dedupKeysKeepFirst [] items.reverse).find? (fun e => e.1 == k)
        = items.reverse.find? (fun e => e.1 == k) := by
  constructor
  · have h1 : items.isEmpty = false := by
      cases items with
      | nil => exact absurd rfl h
      | cons a l => rfl
    have h2 : ((dedupKeysKeepFirst [] items.reverse).reverse).isEmpty = false := by
      rcases hrev : items.reverse with _ | ⟨a, l⟩
      · exfalso
        apply h
        have hi := congrArg List.reverse hrev
        rwa [List.reverse_reverse, List.reverse_nil] at hi
      · simp [dedupKeysKeepFirst]
    simp only [baseSet, h1, h2, Bool.false_eq_true, if_false, List.reverse_reverse]
    rw [foldl_setStep_dedup thisId pm items.reverse]
  · intro k
    exact dedupKeysKeepFirst_find k items.reverse [] rfl

/-- Witness for the C5 amendment at the counterexample input
`[(a, 1), (a, 2)]`: the deduplication keeps the highest-index occurrence. -/
theorem set_highest_index_wins_witness :
    ([("a", some 1), ("a", some 2)] : List (String × Option Int)) ≠ [] ∧
    (baseSet c5Start.1 c5Start.2 [("a", some 1), ("a", some 2)] false
        = baseSet c5Start.1 c5Start.2
            (dedupKeysKeepFirst []
              ([("a", some 1), ("a", some 2)] : List (String × Option Int)).reverse).reverse
            false ∧
      ∀ k : String,
        (dedupKeysKeepFirst []
            ([("a", some 1), ("a", some 2)] : List (String × Option Int)).reverse).find?
            (fun e => e.1 == k)
          = ([("a", some 1), ("a", some 2)] : List (String × Option Int)).reverse.find?
              (fun e => e.1 == k)) :=
  ⟨by decide,
    set_highest_index_wins c5Start.1 c5Start.2 [("a", some 1), ("a", some 2)] false
      (by decide)⟩

theorem walkEntries_none (st : St) (mapId : Nat) (dir : Dir) :
    ∀ fuel : Nat, walkEntries st mapId dir fuel none = [] := by
  intro fuel
  cases fuel with
  | zero => rfl
  | succ n => rfl

/-- C9: corrected — when the mode option is omitted or is not one of
`SINGLE = 1`, `MULTIWAY = 2`, `LIGHTWEIGHT = 3`, the factory silently
substitutes the default mode without raising an error, but the default is
SINGLE (`DEFAULT_MAP_MODE = ImmutableLinkedOrderedMapMode.SINGLE`, source
line 40), not MULTIWAY: the returned map object operates in single mode with
a clear mutation flag. -/
theorem factory_default_mode_single (st : St) (items : List (String × Option Int))
    (modeOpt : Option Int)
    (h : ∀ v : Int, modeOpt = some v → v ≠ 1 ∧ v ≠ 2 ∧ v ≠ 3) :
    ((newImmutableLinkedOrderedMap st items modeOpt).1.mapAt
        (newImmutableLinkedOrderedMap st items modeOpt).2).mode = Mode.single ∧
    ((newImmutableLinkedOrderedMap st items modeOpt).1.mapAt
        (newImmutableLinkedOrderedMap st items modeOpt).2).mutationOccurred = false := by
  obtain ⟨hm, hf⟩ := factory_fresh st items modeOpt
  refine ⟨?_, hf⟩
  rw [hm]
  cases modeOpt with
  | none => rfl
  | some v =>
    obtain ⟨h1, h2, h3⟩ := h v rfl
    simp [resolveModeNumber, modeForNumber, DEFAULT_MAP_MODE, h1, h2, h3]

/-- Witness for the C9 amendment at the unknown mode value `7`: the factory
yields a single-mode map. -/
theorem factory_default_mode_single_witness :
    (∀ v : Int, (some 7 : Option Int) = some v → v ≠ 1 ∧ v ≠ 2 ∧ v ≠ 3) ∧
    (((newImmutableLinkedOrderedMap St.empty [] (some 7)).1.mapAt
        (newImmutableLinkedOrderedMap St.empty [] (some 7)).2).mode = Mode.single ∧
      ((newImmutableLinkedOrderedMap St.empty [] (some 7)).1.mapAt
        (newImmutableLinkedOrderedMap St.empty [] (some 7)).2).mutationOccurred = false) :=
  ⟨fun v hv => by
      injection hv with hv7
      subst hv7
      exact ⟨by decide, by decide, by decide⟩,
    factory_default_mode_single St.empty [] (some 7)
      (fun v hv => by
        injection hv with hv7
        subst hv7
        exact ⟨by decide, by decide, by decide⟩)⟩

/-- C10 counterexample: `length = 0` alone does not make the read helpers
return empty arrays.  On a multiway root, after `set x` on a first child,
`set k` on its child, `set [a, k]` on the root and two `unset k` calls on
that second branch (the second unset still finds the depth-1 node for `k`
because the tombstone landed in the shadowed depth-2 layer, runs the
tail-repair branch, decrements `length` from `1` to `0` and installs a fresh
copy of the `a` node as head and tail), the resulting map has `length = 0`
yet a non-null head, and `keys`/`values`/`keysValues` return one-element
arrays. -/
theorem empty_map_nonempty_reads_counterexample :
    (c10U2.1.mapAt c10U2.2).length = 0 ∧
    (c10U2.1.mapAt c10U2.2).head ≠ none ∧
    keysOf c10U2.1 c10U2.2 = ["a"] ∧
    valuesOf c10U2.1 c10U2.2 = [some 1] ∧
    keysValuesOf c10U2.1 c10U2.2 = [("a", some 1)] := by
  decide

/-- C10: corrected — the read helpers `values`, `keys` and `keysValues`
return the empty array (in the embedding a JS array is a Lean list, so the
result is never `undefined` by construction) exactly on maps whose `head`
reference is null: `forEach` starts from `head` and visits nothing when it
is JS-falsy.  Every map the factory creates without initial items is of this
form, but `length = 0` alone is not enough — `unset` can leave a length-0
map with a stale non-null head whose helpers return nonempty arrays (see
the counterexample). -/
theorem null_head_read_helpers (st : St) (mid : Nat)
    (hh : (st.mapAt mid).head = none) :
    valuesOf st mid = [] ∧ keysOf st mid = [] ∧ keysValuesOf st mid = [] := by
  have hw : forEachEntries st mid false = [] := by
    unfold forEachEntries
    dsimp only
    rw [if_neg (fun hc => Bool.noConfusion hc), hh]
    exact walkEntries_none st mid Dir.next (st.nodes.length + 1)
  refine ⟨?_, ?_, ?_⟩ <;> simp [valuesOf, keysOf, keysValuesOf, hw]

/-- Witness for the C10 amendment at a fresh empty map from the factory
(whose head is null and whose length is `0`). -/
theorem null_head_read_helpers_witness :
    (c10W.1.mapAt c10W.2).head = none ∧ (c10W.1.mapAt c10W.2).length = 0 ∧
      (valuesOf c10W.1 c10W.2 = [] ∧ keysOf c10W.1 c10W.2 = [] ∧
        keysValuesOf c10W.1 c10W.2 = []) :=
  ⟨by decide, by decide, null_head_read_helpers c10W.1 c10W.2 (by decide)⟩
